import Mathlib

set_option linter.unusedVariables false

/-!
Verification development for the Solana phone simulator repository.

The development shallowly embeds the repository code:
- `CryptoModel` embeds `CryptoUtils.encrypt` / `CryptoUtils.decrypt`
  (src seed-vault crypto-utils) at the byte level: PBKDF2 key derivation is
  an abstract function, AES-256-CBC is an abstract 16-byte block cipher
  (the AES primitive itself is Node `crypto` library code, not repository
  code), while CBC chaining with PKCS#7 auto-padding, the
  `salt ++ iv ++ ciphertext` layout and the base64 wrapping are modelled
  concretely.  Plaintexts are modelled as their UTF-8 byte sequences.
- `CryptoModel.parseDerivationPath` / `formatDerivationPath` embed the
  BIP-44 path parser and formatter over the character list of the path
  string, mirroring the two regular expressions of the source.
- `SeedVault` embeds `SeedVaultMock` (memory storage) as explicit state
  passing: every operation returns `Except SVError result × VaultState`,
  keeping the state mutations that happen before a throw, exactly as the
  mutating TypeScript methods do.  The external cryptography used by the
  vault (bip39, ed25519-hd-key, tweetnacl, base58) is collected in an
  abstract `CryptoEnv`.
- `Mwa` embeds `TransactionValidator.validateTransaction`,
  `TransactionTracker` and `MWAServiceImpl.signTransactions`.  The
  non-deterministic approval simulator outcome is an oracle parameter,
  matching the source where the decision comes from timers and randomness.
-/

namespace CryptoModel

/-! ### PKCS#7 padding (the `setAutoPadding(true)` behaviour of aes-256-cbc) -/

/-- PKCS#7 padding to 16-byte blocks: append `k` copies of `k`, `1 ≤ k ≤ 16`. -/
def pkcs7pad (data : List Nat) : List Nat :=
  data ++ List.replicate (16 - data.length % 16) (16 - data.length % 16)

/-- PKCS#7 unpadding with validation, as OpenSSL performs on `final()`. -/
def pkcs7unpad (l : List Nat) : Option (List Nat) :=
  match l.getLast? with
  | none => none
  | some k =>
    if 1 ≤ k ∧ k ≤ 16 ∧ k ≤ l.length ∧ (l.drop (l.length - k)).all (fun x => x = k)
    then some (l.take (l.length - k)) else none

/-! ### CBC mode over an abstract 16-byte block cipher -/

/-- Byte-wise xor of two equal-length byte blocks. -/
def xorBytes (a b : List Nat) : List Nat := List.zipWith Nat.xor a b

/-- An abstract block cipher on 16-byte blocks, standing for AES-256 with a
given key.  The laws are the properties of AES used by the pipeline. -/
structure BlockCipher where
  enc : List Nat → List Nat → List Nat
  dec : List Nat → List Nat → List Nat
  length_enc : ∀ k b, b.length = 16 → (enc k b).length = 16
  lt_enc : ∀ k b, b.length = 16 → (∀ x ∈ b, x < 256) → ∀ x ∈ enc k b, x < 256
  dec_enc : ∀ k b, b.length = 16 → (∀ x ∈ b, x < 256) → dec k (enc k b) = b

/-- CBC encryption of a block list, chaining from `prev` (initially the IV). -/
def cbcEnc (C : BlockCipher) (key prev : List Nat) : List (List Nat) → List (List Nat)
  | [] => []
  | b :: bs =>
    let c := C.enc key (xorBytes b prev)
    c :: cbcEnc C key c bs

/-- CBC decryption of a block list, chaining from `prev` (initially the IV). -/
def cbcDec (C : BlockCipher) (key prev : List Nat) : List (List Nat) → List (List Nat)
  | [] => []
  | c :: cs => xorBytes (C.dec key c) prev :: cbcDec C key c cs

/-- Split a byte list into 16-byte chunks (the last chunk may be short when
the length is not a multiple of 16, as with `Buffer.subarray`). -/
def chunks16 (l : List Nat) : List (List Nat) :=
  if h : l = [] then [] else
    l.take 16 :: chunks16 (l.drop 16)
termination_by l.length
decreasing_by
  simp only [List.length_drop]
  cases l with
  | nil => exact absurd rfl h
  | cons a t => simp; omega

/-! ### Base64 (`Buffer.toString(base64)` / `Buffer.from(_, base64)`) -/

/-- The base64 alphabet. -/
def b64Alphabet : List Char :=
  ['A', 'B', 'C', 'D', 'E', 'F', 'G', 'H', 'I', 'J', 'K', 'L', 'M',
   'N', 'O', 'P', 'Q', 'R', 'S', 'T', 'U', 'V', 'W', 'X', 'Y', 'Z',
   'a', 'b', 'c', 'd', 'e', 'f', 'g', 'h', 'i', 'j', 'k', 'l', 'm',
   'n', 'o', 'p', 'q', 'r', 's', 't', 'u', 'v', 'w', 'x', 'y', 'z',
   '0', '1', '2', '3', '4', '5', '6', '7', '8', '9', '+', '/']

/-- Character of a 6-bit value. -/
def b64Char (n : Nat) : Char := b64Alphabet.getD n 'A'

/-- 6-bit value of a character, `none` for a character outside the alphabet. -/
def b64Val (c : Char) : Option Nat := b64Alphabet.findIdx? (fun x => x = c)

/-- Base64-encode a byte list (with `=` padding). -/
def b64Encode : List Nat → List Char
  | [] => []
  | [a] => [b64Char (a / 4), b64Char (a % 4 * 16), '=', '=']
  | [a, b] => [b64Char (a / 4), b64Char (a % 4 * 16 + b / 16), b64Char (b % 16 * 4), '=']
  | a :: b :: c :: rest =>
    b64Char (a / 4) :: b64Char (a % 4 * 16 + b / 16) ::
    b64Char (b % 16 * 4 + c / 64) :: b64Char (c % 64) :: b64Encode rest

/-- Base64-decode a character list; `none` on malformed input. -/
def b64Decode : List Char → Option (List Nat)
  | [] => some []
  | c1 :: c2 :: c3 :: c4 :: rest =>
    if rest = [] ∧ c3 = '=' ∧ c4 = '=' then
      match b64Val c1, b64Val c2 with
      | some s1, some s2 => some [s1 * 4 + s2 / 16]
      | _, _ => none
    else if rest = [] ∧ c4 = '=' then
      match b64Val c1, b64Val c2, b64Val c3 with
      | some s1, some s2, some s3 => some [s1 * 4 + s2 / 16, s2 % 16 * 16 + s3 / 4]
      | _, _, _ => none
    else
      match b64Val c1, b64Val c2, b64Val c3, b64Val c4, b64Decode rest with
      | some s1, some s2, some s3, some s4, some tail =>
        some ([s1 * 4 + s2 / 16, s2 % 16 * 16 + s3 / 4, s3 % 4 * 64 + s4] ++ tail)
      | _, _, _, _, _ => none
  | _ => none

/-! ### `CryptoUtils.encrypt` / `CryptoUtils.decrypt` -/

/-- Ciphertext bytes: CBC over the PKCS#7-padded plaintext. -/
def encryptBytes (C : BlockCipher) (key iv data : List Nat) : List Nat :=
  (cbcEnc C key iv (chunks16 (pkcs7pad data))).flatten

/-- `CryptoUtils.encrypt`: derive the key from password and salt, CBC-encrypt,
return `base64(salt ++ iv ++ ciphertext)`.  The fresh random `salt` and `iv`
produced by `generateSecureRandom` are parameters here. -/
def encrypt (C : BlockCipher) (kdf : String → List Nat → List Nat)
    (data : List Nat) (password : String) (salt iv : List Nat) : List Char :=
  b64Encode (salt ++ iv ++ encryptBytes C (kdf password salt) iv data)

/-- `CryptoUtils.decrypt`: base64-decode, split off salt (32 bytes) and iv
(16 bytes), re-derive the key and CBC-decrypt; `none` is the thrown
DECRYPTION_FAILED error. -/
def decrypt (C : BlockCipher) (kdf : String → List Nat → List Nat)
    (blob : List Char) (password : String) : Option (List Nat) :=
  match b64Decode blob with
  | none => none
  | some bytes =>
    let salt := bytes.take 32
    let iv := (bytes.drop 32).take 16
    let ct := bytes.drop 48
    let key := kdf password salt
    pkcs7unpad (cbcDec C key iv (chunks16 ct)).flatten

/-! ### BIP-44 derivation path components -/

/-- `DerivationPathComponents` from the seed-vault types. -/
structure DerivationPathComponents where
  purpose : Nat
  coinType : Nat
  account : Nat
  change : Nat
  addressIndex : Nat
deriving DecidableEq, Repr

/-- The hardened marker character (ASCII apostrophe). -/
def tick : Char := Char.ofNat 39

/-- The path separator. -/
def slash : Char := '/'

/-- Decimal digit characters of a natural number, most significant first
(as JavaScript template interpolation of a nonnegative integer renders it). -/
def natDigits (n : Nat) : List Char :=
  if n = 0 then [Char.ofNat 48]
  else ((Nat.digits 10 n).map (fun d => Char.ofNat (48 + d))).reverse

/-- `parseInt(s, 10)` on a digit string, most significant digit first. -/
def digitsVal (cs : List Char) : Nat :=
  cs.foldl (fun a c => 10 * a + (c.toNat - 48)) 0

/-- One `/(\d+)'/` segment: a slash, one or more digits, a hardened marker.
Returns the parsed value and the remaining characters. -/
def parseSegHardened (cs : List Char) : Option (Nat × List Char) :=
  match cs with
  | [] => none
  | c :: rest =>
    if c = slash then
      let ds := rest.takeWhile Char.isDigit
      let r2 := rest.dropWhile Char.isDigit
      if ds = [] then none
      else
        match r2 with
        | [] => none
        | t :: r3 => if t = tick then some (digitsVal ds, r3) else none
    else none

/-- One `/(\d+)/` segment without the hardened marker (the mixed form). -/
def parseSegPlain (cs : List Char) : Option (Nat × List Char) :=
  match cs with
  | [] => none
  | c :: rest =>
    if c = slash then
      let ds := rest.takeWhile Char.isDigit
      let r2 := rest.dropWhile Char.isDigit
      if ds = [] then none else some (digitsVal ds, r2)
    else none

/-- The fully hardened regular expression of `parseDerivationPath`. -/
def parseHardened (cs : List Char) : Option DerivationPathComponents :=
  match cs with
  | [] => none
  | m :: rest =>
    if m = 'm' then
      match parseSegHardened rest with
      | none => none
      | some (p, r1) =>
        match parseSegHardened r1 with
        | none => none
        | some (ct, r2) =>
          match parseSegHardened r2 with
          | none => none
          | some (a, r3) =>
            match parseSegHardened r3 with
            | none => none
            | some (ch, r4) =>
              match parseSegHardened r4 with
              | none => none
              | some (ai, r5) =>
                if r5 = [] then some ⟨p, ct, a, ch, ai⟩ else none
    else none

/-- The mixed regular expression (last two levels unmarked). -/
def parseMixed (cs : List Char) : Option DerivationPathComponents :=
  match cs with
  | [] => none
  | m :: rest =>
    if m = 'm' then
      match parseSegHardened rest with
      | none => none
      | some (p, r1) =>
        match parseSegHardened r1 with
        | none => none
        | some (ct, r2) =>
          match parseSegHardened r2 with
          | none => none
          | some (a, r3) =>
            match parseSegPlain r3 with
            | none => none
            | some (ch, r4) =>
              match parseSegPlain r4 with
              | none => none
              | some (ai, r5) =>
                if r5 = [] then some ⟨p, ct, a, ch, ai⟩ else none
    else none

/-- `CryptoUtils.parseDerivationPath`: try the hardened form, then the mixed
form; `none` is the thrown INVALID_DERIVATION_PATH error. -/
def parseDerivationPath (cs : List Char) : Option DerivationPathComponents :=
  match parseHardened cs with
  | some c => some c
  | none => parseMixed cs

/-- `CryptoUtils.formatDerivationPath`: all components hardened. -/
def formatDerivationPath (c : DerivationPathComponents) : List Char :=
  'm' :: slash :: natDigits c.purpose ++ tick :: slash :: natDigits c.coinType ++
  tick :: slash :: natDigits c.account ++ tick :: slash :: natDigits c.change ++
  tick :: slash :: natDigits c.addressIndex ++ [tick]

/-- `CryptoUtils.validateSolanaDerivationPath`. -/
def validateSolanaDerivationPath (path : String) : Bool :=
  match parseDerivationPath path.data with
  | none => false
  | some c =>
    -- the source also rejects negative indices, which cannot arise for Nat
    c.purpose = 44 ∧ c.coinType = 501 ∧ c.account ≤ 2147483647 ∧
    c.change ≤ 2147483647 ∧ c.addressIndex ≤ 2147483647

end CryptoModel

namespace SeedVault

/-! ### Seed Vault data model (seed-vault types and SeedVaultMock state) -/

/-- The `SeedVaultErrorCode` union type of the seed-vault types module.
The union has exactly these ten members; in particular it contains no
duplicate-wallet code. -/
inductive ErrCode where
  | VAULT_LOCKED
  | INVALID_MNEMONIC
  | WALLET_NOT_FOUND
  | INVALID_DERIVATION_PATH
  | ENCRYPTION_FAILED
  | DECRYPTION_FAILED
  | INVALID_TRANSACTION
  | SIGNING_FAILED
  | STORAGE_ERROR
  | INVALID_PASSWORD
deriving DecidableEq, Repr

/-- A `SeedVaultError`: a stable code plus a message. -/
structure SVError where
  code : ErrCode
  message : String
deriving DecidableEq, Repr

/-- `WalletProfile`.  Public keys are abstracted to `Nat` tags and dates to
`Nat` timestamps throughout the vault model. -/
structure WalletProfile where
  name : String
  mnemonic : Option String
  derivationPath : String
  network : String
deriving DecidableEq, Repr

/-- A `Wallet` record as persisted by the storage backend. -/
structure Wallet where
  id : String
  profile : WalletProfile
  publicKey : Nat
  encryptedPrivateKey : String
  createdAt : Nat
  lastUsed : Nat
deriving DecidableEq, Repr

/-- An ed25519 keypair (`@solana/web3.js` `Keypair`). -/
structure Keypair where
  publicKey : Nat
  secretKey : List Nat
deriving DecidableEq, Repr

/-- The `{mnemonic, secretKey}` payload the vault encrypts at rest
(JSON serialization collapsed into the structure). -/
structure SecretPayload where
  mnemonic : String
  secretKey : List Nat
deriving DecidableEq, Repr

/-- An account key entry of an instruction; `none` in a flag position models
a value that is not a boolean (`typeof` check in the validator). -/
structure AccountMeta where
  pubkey : Option Nat
  isSigner : Option Bool
  isWritable : Option Bool
deriving DecidableEq, Repr

/-- A transaction instruction.  Program ids and account keys are `Nat` tags
(base58 rendering collapsed), with `Option` for the fields the validator
checks defensively. -/
structure Instr where
  programId : Option Nat
  keys : Option (List AccountMeta)
  data : List Nat
deriving DecidableEq, Repr

/-- A `@solana/web3.js` `Transaction` as far as the repository reads it. -/
structure Tx where
  instructions : List Instr
  feePayer : Option Nat
  recentBlockhash : Option String
  signatures : List (Nat × List Nat)
deriving DecidableEq, Repr

/-- The external cryptography the vault calls through `CryptoUtils`:
bip39 validation and seeding, ed25519-hd-key derivation, password
encryption of the secret payload, detached ed25519 signing, base58
rendering, the deterministic wallet id (`hash(publicKey)` prefix), and
`Transaction.serialize` (called for the confirmation context). -/
structure CryptoEnv where
  validMnemonic : String → Bool
  mnemonicToSeed : String → List Nat
  deriveFromSeed : List Nat → String → Except String Keypair
  encryptPayload : SecretPayload → String → String
  decryptPayload : String → String → Option SecretPayload
  sign : List Nat → List Nat → List Nat
  toBase58 : Nat → String
  detWalletId : String → String
  serialize : Tx → Except String String


/-- The mock transaction message signed by `signTransaction` (UTF-8 bytes of
the constant string in the source). -/
def mockMessageBytes : List Nat :=
  ("mock transaction message for simulation".data.map (fun c => c.toNat))

/-- The hard-coded recent blockhash of the mock signed transaction. -/
def mockBlockhash : String := "EkSnNWid2cvwEVnVx9aBqawnmiCNiDgp3gUdkDPTKN1N"

/-- The `SeedVaultMock` state under memory storage: initialization and lock
flags, the in-memory session password, the storage wallet map (insertion
order preserved, keyed by wallet id) and the activity timestamp. -/
structure VaultState where
  isInitialized : Bool
  isLocked : Bool
  masterPassword : Option String
  wallets : List Wallet
  lastActivity : Nat
deriving DecidableEq, Repr

/-- `MemoryStorage.saveWallet`: `Map.set` keyed by wallet id. -/
def storageSave (ws : List Wallet) (w : Wallet) : List Wallet :=
  if ws.any (fun x => x.id = w.id) then ws.map (fun x => if x.id = w.id then w else x)
  else ws ++ [w]

/-- `MemoryStorage.loadWallet`: `Map.get`. -/
def storageLoad (ws : List Wallet) (id : String) : Option Wallet :=
  ws.find? (fun x => x.id = id)

/-- Stable insertion into a list sorted by `lastUsed` descending: the new
element goes before every element with an equal or smaller key, preserving
the original relative order of ties. -/
def insertDesc (w : Wallet) : List Wallet → List Wallet
  | [] => [w]
  | x :: xs => if x.lastUsed ≤ w.lastUsed then w :: x :: xs else x :: insertDesc w xs

/-- Stable sort by `lastUsed` descending (insertion sort). -/
def sortDesc : List Wallet → List Wallet
  | [] => []
  | x :: xs => insertDesc x (sortDesc xs)

/-- `MemoryStorage.loadAllWallets`: all wallets sorted by `lastUsed`
descending (a stable sort, as V8 `Array.sort` with the
`b.lastUsed - a.lastUsed` comparator). -/
def loadAllWallets (ws : List Wallet) : List Wallet :=
  sortDesc ws

/-- Build a `SeedVaultError`. -/
def mkErr (c : ErrCode) (m : String) : SVError := ⟨c, m⟩

/-- `ensureInitialized`: the error it would throw, if any. -/
def ensureInitialized (v : VaultState) : Option SVError :=
  if v.isInitialized then none
  else some (mkErr .VAULT_LOCKED "Seed Vault is not initialized")

/-- `ensureUnlocked`: the error it would throw, if any. -/
def ensureUnlocked (v : VaultState) : Option SVError :=
  match ensureInitialized v with
  | some e => some e
  | none =>
    if v.isLocked then some (mkErr .VAULT_LOCKED "Seed Vault is locked") else none

/-- `updateActivity` (the auto-lock timer is outside the state model). -/
def updateActivity (v : VaultState) (now : Nat) : VaultState :=
  { v with lastActivity := now }

/-- `SeedVaultMock.lock`: idempotent; clears the in-memory password. -/
def lock (v : VaultState) : Except SVError Unit × VaultState :=
  match ensureInitialized v with
  | some e => (.error e, v)
  | none =>
    if v.isLocked then (.ok (), v)
    else (.ok (), { v with isLocked := true, masterPassword := none })

/-- `SeedVaultMock.unlock`: no-op when already unlocked; otherwise a minimal
length gate on the password, then the password is held in memory. -/
def unlock (v : VaultState) (password : String) (now : Nat) :
    Except SVError Unit × VaultState :=
  match ensureInitialized v with
  | some e => (.error e, v)
  | none =>
    if v.isLocked = false then (.ok (), v)
    else if password.length < 4 then
      (.error (mkErr .INVALID_PASSWORD "Invalid password provided"), v)
    else
      (.ok (), { v with isLocked := false, masterPassword := some password,
                        lastActivity := now })

/-- `SeedVaultStatus`. -/
structure VaultStatus where
  isLocked : Bool
  walletCount : Nat
  lastActivity : Nat
  version : String
deriving DecidableEq, Repr

/-- `SeedVaultMock.getStatus`: allowed while locked. -/
def getStatus (v : VaultState) : Except SVError VaultStatus × VaultState :=
  match ensureInitialized v with
  | some e => (.error e, v)
  | none =>
    (.ok ⟨v.isLocked, (loadAllWallets v.wallets).length, v.lastActivity, "1.0.0"⟩, v)

/-- `CryptoUtils.deriveKeypairFromMnemonic`: mnemonic validation, seeding,
then hierarchical derivation. -/
def deriveKeypairFromMnemonic (env : CryptoEnv) (mnemonic path : String) :
    Except SVError Keypair :=
  if env.validMnemonic mnemonic = false then
    .error (mkErr .INVALID_MNEMONIC "Invalid mnemonic phrase")
  else
    match env.deriveFromSeed (env.mnemonicToSeed mnemonic) path with
    | .error s => .error (mkErr .INVALID_DERIVATION_PATH ("Failed to derive keypair: " ++ s))
    | .ok kp => .ok kp

/-- `SeedVaultMock.generateWallet`.  The fresh mnemonic from
`generateMnemonic` and the random id from `generateWalletId` are the
`genMnemonic` / `freshId` parameters. -/
def generateWallet (env : CryptoEnv) (v : VaultState) (profile : WalletProfile)
    (genMnemonic freshId : String) (now : Nat) :
    Except SVError Wallet × VaultState :=
  match ensureUnlocked v with
  | some e => (.error e, v)
  | none =>
    let v1 := updateActivity v now
    let mnemonic := profile.mnemonic.getD genMnemonic
    if env.validMnemonic mnemonic = false then
      (.error (mkErr .INVALID_MNEMONIC "Generated mnemonic is invalid"), v1)
    else
      match deriveKeypairFromMnemonic env mnemonic profile.derivationPath with
      | .error e => (.error e, v1)
      | .ok kp =>
        let w : Wallet :=
          { id := freshId, profile := profile, publicKey := kp.publicKey,
            encryptedPrivateKey :=
              env.encryptPayload ⟨mnemonic, kp.secretKey⟩ (v.masterPassword.getD ""),
            createdAt := now, lastUsed := now }
        (.ok w, { v1 with wallets := storageSave v1.wallets w })

/-- `SeedVaultMock.importWallet`: validate, derive, reject a public key that
is already stored, then persist with the deterministic id. -/
def importWallet (env : CryptoEnv) (v : VaultState) (profile : WalletProfile)
    (mnemonic : String) (now : Nat) : Except SVError Wallet × VaultState :=
  match ensureUnlocked v with
  | some e => (.error e, v)
  | none =>
    let v1 := updateActivity v now
    if env.validMnemonic mnemonic = false then
      (.error (mkErr .INVALID_MNEMONIC "Invalid mnemonic phrase provided"), v1)
    else
      match deriveKeypairFromMnemonic env mnemonic profile.derivationPath with
      | .error e => (.error e, v1)
      | .ok kp =>
        match (loadAllWallets v1.wallets).find? (fun w => w.publicKey = kp.publicKey) with
        | some _ =>
          (.error (mkErr .WALLET_NOT_FOUND "Wallet with this public key already exists"), v1)
        | none =>
          let w : Wallet :=
            { id := env.detWalletId (env.toBase58 kp.publicKey),
              profile := { profile with mnemonic := some mnemonic },
              publicKey := kp.publicKey,
              encryptedPrivateKey :=
                env.encryptPayload ⟨mnemonic, kp.secretKey⟩ (v.masterPassword.getD ""),
              createdAt := now, lastUsed := now }
          (.ok w, { v1 with wallets := storageSave v1.wallets w })

/-- `WalletExport`. -/
structure WalletExport where
  profile : WalletProfile
  mnemonic : String
  publicKey : String
  createdAt : Nat
deriving DecidableEq, Repr

/-- `SeedVaultMock.exportWallet`: decrypt with the in-memory password. -/
def exportWallet (env : CryptoEnv) (v : VaultState) (walletId : String) (now : Nat) :
    Except SVError WalletExport × VaultState :=
  match ensureUnlocked v with
  | some e => (.error e, v)
  | none =>
    let v1 := updateActivity v now
    match storageLoad v1.wallets walletId with
    | none => (.error (mkErr .WALLET_NOT_FOUND ("Wallet " ++ walletId ++ " not found")), v1)
    | some w =>
      match env.decryptPayload w.encryptedPrivateKey (v.masterPassword.getD "") with
      | none =>
        (.error (mkErr .DECRYPTION_FAILED "Failed to export wallet: decryption error"), v1)
      | some payload =>
        (.ok ⟨w.profile, payload.mnemonic, env.toBase58 w.publicKey, w.createdAt⟩, v1)

/-- `SeedVaultMock.listWallets`. -/
def listWallets (v : VaultState) (now : Nat) :
    Except SVError (List Wallet) × VaultState :=
  match ensureUnlocked v with
  | some e => (.error e, v)
  | none =>
    let v1 := updateActivity v now
    (.ok (loadAllWallets v1.wallets), v1)

/-- `SeedVaultMock.getWallet`. -/
def getWallet (v : VaultState) (walletId : String) (now : Nat) :
    Except SVError (Option Wallet) × VaultState :=
  match ensureUnlocked v with
  | some e => (.error e, v)
  | none =>
    let v1 := updateActivity v now
    (.ok (storageLoad v1.wallets walletId), v1)

/-- `SeedVaultMock.deleteWallet`. -/
def deleteWallet (v : VaultState) (walletId : String) (now : Nat) :
    Except SVError Unit × VaultState :=
  match ensureUnlocked v with
  | some e => (.error e, v)
  | none =>
    let v1 := updateActivity v now
    match storageLoad v1.wallets walletId with
    | none => (.error (mkErr .WALLET_NOT_FOUND ("Wallet " ++ walletId ++ " not found")), v1)
    | some _ =>
      (.ok (), { v1 with wallets := v1.wallets.filter (fun x => x.id ≠ walletId) })

/-- `DerivedKey`. -/
structure DerivedKey where
  keypair : Keypair
  publicKey : Nat
  derivationPath : String
deriving DecidableEq, Repr

/-- `SeedVaultMock.deriveKeypair`: path validation (via the concrete
`CryptoModel` path parser), decryption, then re-derivation. -/
def deriveKeypair (env : CryptoEnv) (v : VaultState) (walletId derivationPath : String)
    (now : Nat) : Except SVError DerivedKey × VaultState :=
  match ensureUnlocked v with
  | some e => (.error e, v)
  | none =>
    let v1 := updateActivity v now
    match storageLoad v1.wallets walletId with
    | none => (.error (mkErr .WALLET_NOT_FOUND ("Wallet " ++ walletId ++ " not found")), v1)
    | some w =>
      if CryptoModel.validateSolanaDerivationPath derivationPath = false then
        (.error (mkErr .INVALID_DERIVATION_PATH
          ("Invalid Solana derivation path: " ++ derivationPath)), v1)
      else
        match env.decryptPayload w.encryptedPrivateKey (v.masterPassword.getD "") with
        | none => (.error (mkErr .DECRYPTION_FAILED "Decryption failed"), v1)
        | some payload =>
          match deriveKeypairFromMnemonic env payload.mnemonic derivationPath with
          | .error e => (.error e, v1)
          | .ok kp => (.ok ⟨kp, kp.publicKey, derivationPath⟩, v1)

/-- `SeedVaultMock.deriveKeypairFromComponents`: format, then derive. -/
def deriveKeypairFromComponents (env : CryptoEnv) (v : VaultState) (walletId : String)
    (components : CryptoModel.DerivationPathComponents) (now : Nat) :
    Except SVError DerivedKey × VaultState :=
  deriveKeypair env v walletId
    (String.mk (CryptoModel.formatDerivationPath components)) now

/-- `SeedVaultMock.getPublicKey`. -/
def getPublicKey (v : VaultState) (walletId : String) (now : Nat) :
    Except SVError Nat × VaultState :=
  match ensureUnlocked v with
  | some e => (.error e, v)
  | none =>
    let v1 := updateActivity v now
    match storageLoad v1.wallets walletId with
    | none => (.error (mkErr .WALLET_NOT_FOUND ("Wallet " ++ walletId ++ " not found")), v1)
    | some w => (.ok w.publicKey, v1)

/-- `SigningResult`. -/
structure SigningResult where
  signature : List Nat
  signedTransaction : Tx
  timestamp : Nat
deriving DecidableEq, Repr

/-- `MessageSigningResult`. -/
structure MessageSigningResult where
  signature : List Nat
  message : List Nat
  publicKey : Nat
  timestamp : Nat
deriving DecidableEq, Repr

/-- `SeedVaultMock.signTransaction`.  Without auto-approval the source
serializes the transaction for the confirmation context (which may throw)
and the simulated confirmation always resolves to approval.  The signature
is computed over the constant mock message and the signed transaction is a
mock with the hard-coded blockhash. -/
def signTransaction (env : CryptoEnv) (v : VaultState) (walletId : String)
    (tx : Tx) (autoApprove : Bool) (now : Nat) :
    Except SVError SigningResult × VaultState :=
  match ensureUnlocked v with
  | some e => (.error e, v)
  | none =>
    let v1 := updateActivity v now
    match storageLoad v1.wallets walletId with
    | none => (.error (mkErr .WALLET_NOT_FOUND ("Wallet " ++ walletId ++ " not found")), v1)
    | some w =>
      match (if autoApprove then .ok "" else env.serialize tx : Except String String) with
      | .error s =>
        (.error (mkErr .SIGNING_FAILED ("Failed to sign transaction: " ++ s)), v1)
      | .ok _ =>
        -- simulateUserConfirmation resolves to approval in the mock
        match env.decryptPayload w.encryptedPrivateKey (v.masterPassword.getD "") with
        | none => (.error (mkErr .DECRYPTION_FAILED "Decryption failed"), v1)
        | some payload =>
          match deriveKeypairFromMnemonic env payload.mnemonic w.profile.derivationPath with
          | .error e => (.error e, v1)
          | .ok kp =>
            if kp.publicKey ≠ w.publicKey then
              (.error (mkErr .SIGNING_FAILED
                "Derived keypair does not match wallet public key"), v1)
            else if tx.instructions = [] then
              (.error (mkErr .INVALID_TRANSACTION "Transaction has no instructions"), v1)
            else
              let signature := env.sign kp.secretKey mockMessageBytes
              let signedTx : Tx :=
                { instructions := tx.instructions, feePayer := some kp.publicKey,
                  recentBlockhash := some mockBlockhash,
                  signatures := [(kp.publicKey, signature)] }
              let w2 := { w with lastUsed := now }
              (.ok ⟨signature, signedTx, now⟩,
               { v1 with wallets := storageSave v1.wallets w2 })

/-- `SeedVaultMock.signMessage`.  The derived keypair signs the raw message;
no comparison against the stored public key is performed. -/
def signMessage (env : CryptoEnv) (v : VaultState) (walletId : String)
    (message : List Nat) (autoApprove : Bool) (now : Nat) :
    Except SVError MessageSigningResult × VaultState :=
  match ensureUnlocked v with
  | some e => (.error e, v)
  | none =>
    let v1 := updateActivity v now
    match storageLoad v1.wallets walletId with
    | none => (.error (mkErr .WALLET_NOT_FOUND ("Wallet " ++ walletId ++ " not found")), v1)
    | some w =>
      -- simulateUserConfirmation (hex rendering never throws) approves
      match env.decryptPayload w.encryptedPrivateKey (v.masterPassword.getD "") with
      | none => (.error (mkErr .DECRYPTION_FAILED "Decryption failed"), v1)
      | some payload =>
        match deriveKeypairFromMnemonic env payload.mnemonic w.profile.derivationPath with
        | .error e => (.error e, v1)
        | .ok kp =>
          let signature := env.sign kp.secretKey message
          let w2 := { w with lastUsed := now }
          (.ok ⟨signature, message, kp.publicKey, now⟩,
           { v1 with wallets := storageSave v1.wallets w2 })

/-- `SeedVaultMock.reset`: requires initialization only; clears storage and
forces the locked state. -/
def reset (v : VaultState) : Except SVError Unit × VaultState :=
  match ensureInitialized v with
  | some e => (.error e, v)
  | none =>
    (.ok (), { v with wallets := [], isLocked := true, masterPassword := none })

end SeedVault

namespace Mwa

open SeedVault (Tx Instr AccountMeta CryptoEnv VaultState)

/-! ### `TransactionValidator` (transaction-validator module) -/

/-- The system program id (`SystemProgram.programId`), as an abstract tag. -/
def systemProgramId : Nat := 0

/-- The SPL token program id tag. -/
def tokenProgramId : Nat := 1

/-- The associated token program id tag. -/
def associatedTokenProgramId : Nat := 2

/-- `TransactionType`. -/
inductive TransactionType where
  | transfer
  | token_transfer
  | program_interaction
  | account_creation
  | unknown
deriving DecidableEq, Repr

/-- `TransactionMetadata`. -/
structure TransactionMetadata where
  instructionCount : Nat
  accountCount : Nat
  estimatedFee : Nat
  programIds : List Nat
  hasSystemProgram : Bool
  hasTokenProgram : Bool
  transferAmount : Option Nat
  recipient : Option Nat
  type : TransactionType
deriving DecidableEq, Repr

/-- `TransactionValidationResult`. -/
structure ValidationResult where
  isValid : Bool
  errors : List String
  warnings : List String
  metadata : TransactionMetadata
deriving DecidableEq, Repr

/-- The account-key checks of `validateInstructions` for one key entry. -/
def keyErrors (i j : Nat) (k : AccountMeta) : List String :=
  (if k.pubkey = none then [s!"Instruction {i}, key {j} has no public key"] else []) ++
  (if k.isSigner = none then [s!"Instruction {i}, key {j} has invalid isSigner flag"] else []) ++
  (if k.isWritable = none then [s!"Instruction {i}, key {j} has invalid isWritable flag"] else [])

/-- The checks of `validateInstructions` for one instruction. -/
def instrErrors (i : Nat) (ins : Instr) : List String :=
  match ins.programId with
  | none => [s!"Instruction {i} has no program ID"]
  | some _ =>
    match ins.keys with
    | none => [s!"Instruction {i} has no account keys"]
    | some ks => (ks.enum.map (fun p => keyErrors i p.1 p.2)).flatten

/-- `TransactionValidator.validateInstructions`. -/
def validateInstructions (instrs : List Instr) : List String :=
  (instrs.enum.map (fun p => instrErrors p.1 p.2)).flatten

/-- Little-endian unsigned 64-bit read (`DataView.getBigUint64(0, true)`). -/
def readLE64 (bs : List Nat) : Nat :=
  bs.foldr (fun b acc => b + 256 * acc) 0

/-- `TransactionValidator.extractSystemTransferInfo`: best-effort decode of a
native transfer amount (8 bytes at offset 4) and recipient (second key). -/
def extractSystemTransferInfo (ks : List AccountMeta) (data : List Nat) :
    Option (Nat × Nat) :=
  if ks.length ≥ 2 ∧ data.length ≥ 4 then
    let recipient := (ks.get? 1).bind (fun k => k.pubkey)
    let amount := if data.length ≥ 12 then readLE64 ((data.drop 4).take 8) else 0
    match recipient with
    | some r => if amount > 0 then some (amount, r) else none
    | none => none
  else none

/-- JavaScript `Set.add` with insertion order (`Array.from` ordering). -/
def insertId (ids : List Nat) (p : Nat) : List Nat :=
  if p ∈ ids then ids else ids ++ [p]

/-- Accumulator of `extractTransactionMetadata`. -/
structure MetaAcc where
  programIds : List Nat
  accountCount : Nat
  hasSystemProgram : Bool
  hasTokenProgram : Bool
  transferAmount : Option Nat
  recipient : Option Nat
deriving DecidableEq, Repr

/-- The instruction loop of `extractTransactionMetadata`.  An instruction
with a program id but absent `keys` makes the source read `.length` of
`undefined`: the thrown TypeError is the `Except.error`. -/
def extractLoop : MetaAcc → List Instr → Except String MetaAcc
  | acc, [] => .ok acc
  | acc, ins :: rest =>
    match ins.programId with
    | none => extractLoop acc rest
    | some pid =>
      match ins.keys with
      | none => .error "Cannot read properties of undefined (reading length)"
      | some ks =>
        let acc1 := { acc with programIds := insertId acc.programIds pid }
        let acc2 :=
          if pid = systemProgramId then
            match extractSystemTransferInfo ks ins.data with
            | some ar =>
              { acc1 with hasSystemProgram := true,
                          transferAmount := some ar.1, recipient := some ar.2 }
            | none => { acc1 with hasSystemProgram := true }
          else acc1
        let acc3 :=
          if pid = tokenProgramId ∨ pid = associatedTokenProgramId then
            { acc2 with hasTokenProgram := true }
          else acc2
        extractLoop { acc3 with accountCount := acc3.accountCount + ks.length } rest

/-- `TransactionValidator.classifyTransactionType`. -/
def classifyTransactionType (programIds : List Nat)
    (hasSystemProgram hasTokenProgram hasTransferAmount : Bool) : TransactionType :=
  if hasTokenProgram then .token_transfer
  else if hasSystemProgram ∧ hasTransferAmount ∧ programIds.length = 1 then .transfer
  else if hasSystemProgram ∧ hasTransferAmount = false ∧ programIds.length = 1 then
    .account_creation
  else if programIds.length > 1 ∨ (hasSystemProgram = false ∧ hasTokenProgram = false) then
    .program_interaction
  else .unknown

/-- `TransactionValidator.estimateTransactionFee`. -/
def estimateTransactionFee (tx : Tx) : Nat :=
  5000 + tx.instructions.length * 1000

/-- `TransactionValidator.extractTransactionMetadata`. -/
def extractTransactionMetadata (tx : Tx) : Except String TransactionMetadata :=
  match extractLoop ⟨[], 0, false, false, none, none⟩ tx.instructions with
  | .error s => .error s
  | .ok acc =>
    .ok { instructionCount := tx.instructions.length,
          accountCount := acc.accountCount,
          estimatedFee := estimateTransactionFee tx,
          programIds := acc.programIds,
          hasSystemProgram := acc.hasSystemProgram,
          hasTokenProgram := acc.hasTokenProgram,
          transferAmount := acc.transferAmount,
          recipient := acc.recipient,
          type := classifyTransactionType acc.programIds acc.hasSystemProgram
                    acc.hasTokenProgram (acc.transferAmount ≠ none) }

/-- `TransactionValidator.validateByType`. -/
def validateByType (md : TransactionMetadata) : List String :=
  match md.type with
  | .transfer =>
    (if (md.transferAmount.getD 0) = 0 then ["Transfer transaction has invalid amount"] else [])
    ++ (if md.recipient = none then ["Transfer transaction has no recipient"] else [])
  | .token_transfer =>
    if md.hasTokenProgram = false then ["Token transfer transaction missing token program"] else []
  | .account_creation =>
    if md.instructionCount = 0 then ["Account creation transaction has no instructions"] else []
  | .program_interaction =>
    if md.programIds = [] then ["Program interaction transaction has no program IDs"] else []
  | .unknown => []

/-- `TransactionValidator.createEmptyMetadata`. -/
def createEmptyMetadata : TransactionMetadata :=
  ⟨0, 0, 0, [], false, false, none, none, .unknown⟩

/-- `TransactionValidator.validateTransaction`: all checks collected.
`Except.error` is an exception escaping the validator (the metadata
TypeError); `none` input is a null transaction. -/
def validateTransaction (tx? : Option Tx) : Except String ValidationResult :=
  match tx? with
  | none =>
    .ok { isValid := false, errors := ["Transaction is null or undefined"],
          warnings := [], metadata := createEmptyMetadata }
  | some tx =>
    let errors1 :=
      (if tx.instructions = [] then ["Transaction has no instructions"] else [])
      ++ (if tx.feePayer = none then ["Transaction has no fee payer"] else [])
    let warnings :=
      if tx.recentBlockhash = none then
        ["Transaction has no recent blockhash (may be set later)"] else []
    let errors2 := errors1 ++ validateInstructions tx.instructions
    match extractTransactionMetadata tx with
    | .error s => .error s
    | .ok md =>
      let errors3 := errors2 ++ validateByType md
      .ok { isValid := errors3 = [], errors := errors3, warnings := warnings,
            metadata := md }

end Mwa

namespace Mwa

/-! ### `TransactionTracker` (transaction-tracker module) -/

/-- `TransactionStatus`. -/
inductive TxStatus where
  | pending
  | approved
  | rejected
  | signing
  | signed
  | signing_failed
  | submitted
  | confirmed
  | failed
  | expired
deriving DecidableEq, Repr

/-- The status string used in event messages. -/
def statusName : TxStatus → String
  | .pending => "pending"
  | .approved => "approved"
  | .rejected => "rejected"
  | .signing => "signing"
  | .signed => "signed"
  | .signing_failed => "signing_failed"
  | .submitted => "submitted"
  | .confirmed => "confirmed"
  | .failed => "failed"
  | .expired => "expired"

/-- A `TransactionEvent` (the heterogeneous `data` record is reduced to the
previous/new status pair that `status_change` events carry). -/
structure TrackerEvent where
  etype : String
  timestamp : Nat
  previousStatus : Option TxStatus
  newStatus : Option TxStatus
  message : String
deriving DecidableEq, Repr

/-- A `TransactionLogEntry`. -/
structure TrackerEntry where
  id : String
  walletId : String
  dAppIdentifier : String
  transaction : SeedVault.Tx
  metadata : TransactionMetadata
  status : TxStatus
  signature : Option String
  error : Option String
  createdAt : Nat
  updatedAt : Nat
  approvedAt : Option Nat
  signedAt : Option Nat
  submittedAt : Option Nat
  confirmedAt : Option Nat
  events : List TrackerEvent
deriving DecidableEq, Repr

/-- The tracker log: a map keyed by transaction id, insertion ordered. -/
abbrev TrackerState := List TrackerEntry

/-- `Map.get` on the log. -/
def trackerGet (t : TrackerState) (id : String) : Option TrackerEntry :=
  t.find? (fun e => e.id = id)

/-- `Map.set` on the log. -/
def trackerSet (t : TrackerState) (e : TrackerEntry) : TrackerState :=
  if t.any (fun x => x.id = e.id) then t.map (fun x => if x.id = e.id then e else x)
  else t ++ [e]

/-- `TransactionTracker.createTransaction`: the only way an entry is born;
status `pending` with a creation event. -/
def createTransaction (t : TrackerState) (id walletId dAppIdentifier : String)
    (tx : SeedVault.Tx) (md : TransactionMetadata) (now : Nat) :
    TrackerEntry × TrackerState :=
  let entry : TrackerEntry :=
    { id := id, walletId := walletId, dAppIdentifier := dAppIdentifier,
      transaction := tx, metadata := md, status := .pending,
      signature := none, error := none, createdAt := now, updatedAt := now,
      approvedAt := none, signedAt := none, submittedAt := none, confirmedAt := none,
      events := [⟨"status_change", now, none, some .pending, "Transaction created"⟩] }
  (entry, trackerSet t entry)

/-- `TransactionTracker.updateStatus`: sets the given status on an existing
entry, stamps the per-phase timestamp, appends a `status_change` event.
`Except.error` is the thrown not-found error. -/
def updateStatus (t : TrackerState) (transactionId : String) (status : TxStatus)
    (now : Nat) : Except String TrackerState :=
  match trackerGet t transactionId with
  | none => .error ("Transaction " ++ transactionId ++ " not found")
  | some entry =>
    let entry2 :=
      { entry with
        status := status, updatedAt := now,
        approvedAt := if status = .approved then some now else entry.approvedAt,
        signedAt := if status = .signed then some now else entry.signedAt,
        submittedAt := if status = .submitted then some now else entry.submittedAt,
        confirmedAt := if status = .confirmed then some now else entry.confirmedAt,
        events := entry.events ++
          [⟨"status_change", now, some entry.status, some status,
            "Status changed from " ++ statusName entry.status ++ " to " ++ statusName status⟩] }
    .ok (trackerSet t entry2)

/-- `TransactionTracker.addSignature`. -/
def addSignature (t : TrackerState) (transactionId signature : String) (now : Nat) :
    Except String TrackerState :=
  match trackerGet t transactionId with
  | none => .error ("Transaction " ++ transactionId ++ " not found")
  | some entry =>
    let entry2 :=
      { entry with
        signature := some signature, updatedAt := now,
        events := entry.events ++
          [⟨"signing_completed", now, none, none, "Transaction signed successfully"⟩] }
    .ok (trackerSet t entry2)

/-- `TransactionTracker.addError`. -/
def addError (t : TrackerState) (transactionId error : String) (now : Nat) :
    Except String TrackerState :=
  match trackerGet t transactionId with
  | none => .error ("Transaction " ++ transactionId ++ " not found")
  | some entry =>
    let entry2 :=
      { entry with
        error := some error, updatedAt := now,
        events := entry.events ++ [⟨"error", now, none, none, error⟩] }
    .ok (trackerSet t entry2)

end Mwa

namespace Mwa

/-! ### `MWAServiceImpl` (mwa-service module) -/

/-- Session connection state. -/
inductive ConnState where
  | connected
  | disconnected
deriving DecidableEq, Repr

/-- `MWASession`. -/
structure MWASession where
  sessionId : String
  dAppIdentifier : String
  authorizedPublicKey : Option Nat
  connectionState : ConnState
  permissions : List String
  authorizedAt : Option Nat
  lastActivity : Nat
deriving DecidableEq, Repr

/-- `SignResult`. -/
structure SignResult where
  signedTransaction : Option SeedVault.Tx
  signature : Option (List Nat)
  error : Option String
deriving DecidableEq, Repr

/-- The `MWAServiceImpl` state: the session map, the seed vault it drives,
and the transaction tracker. -/
structure MwaState where
  sessions : List (String × MWASession)
  vault : SeedVault.VaultState
  tracker : TrackerState
deriving DecidableEq, Repr

/-- `Map.has` on the session table. -/
def sessionsHas (ss : List (String × MWASession)) (id : String) : Bool :=
  ss.any (fun p => p.1 = id)

/-- `updateSessionActivity`: refresh `lastActivity` of a stored session. -/
def updateSessionActivity (ss : List (String × MWASession)) (id : String) (now : Nat) :
    List (String × MWASession) :=
  ss.map (fun p => if p.1 = id then (p.1, { p.2 with lastActivity := now }) else p)

/-- Hex digit characters. -/
def hexDigit (n : Nat) : Char :=
  "0123456789abcdef".data.getD n '0'

/-- `Buffer.toString(hex)` of a byte list. -/
def toHexString (bs : List Nat) : String :=
  String.mk ((bs.map (fun b => [hexDigit (b / 16), hexDigit (b % 16)])).flatten)

/-- `", ".join(errors)`. -/
def joinComma (ss : List String) : String := String.intercalate ", " ss

/-- The per-item `catch` block of `signTransactions`: with a bound valid
validation it marks the tracker entry `signing_failed` and attaches the
error (creating the entry first if the update throws not-found), then
records a failed result; an exception escaping the block is `Except.error`
in the first component. -/
def itemCatch (tx : SeedVault.Tx) (txId walletId dApp : String)
    (validation : Option ValidationResult) (m : String) (now : Nat)
    (tracker : TrackerState) : Except String SignResult × TrackerState :=
  let res : SignResult := ⟨none, none, some ("Failed to sign transaction: " ++ m)⟩
  let afterVal : ValidationResult → Except String SignResult × TrackerState := fun val =>
    if val.isValid then
      match updateStatus tracker txId .signing_failed now with
      | .ok tr1 =>
        match addError tr1 txId m now with
        | .ok tr2 => (.ok res, tr2)
        | .error s2 => (.error s2, tr1)
      | .error _ =>
        let (_, trA) := createTransaction tracker txId walletId dApp tx val.metadata now
        match updateStatus trA txId .signing_failed now with
        | .ok trB =>
          match addError trB txId m now with
          | .ok trC => (.ok res, trC)
          | .error s2 => (.error s2, trB)
        | .error s2 => (.error s2, trA)
    else (.ok res, tracker)
  match validation with
  | some val => afterVal val
  | none =>
    -- validation was never bound: the catch block re-validates, and a
    -- validator exception here escapes the loop
    match validateTransaction (some tx) with
    | .error s => (.error s, tracker)
    | .ok val => afterVal val

/-- One iteration of the `signTransactions` loop for one transaction:
validate, create the tracker entry, request approval (its outcome is the
`approval` oracle value), sign through the vault, and record exactly one
result; an `Except.error` first component is an exception escaping to the
outer catch. -/
def processItem (env : SeedVault.CryptoEnv) (approval : Bool × Option String)
    (txId walletId dApp : String) (tx : SeedVault.Tx) (now : Nat)
    (vault : SeedVault.VaultState) (tracker : TrackerState) :
    Except String SignResult × SeedVault.VaultState × TrackerState :=
  match validateTransaction (some tx) with
  | .error s => (.error s, vault, tracker)
  | .ok val =>
    if val.isValid = false then
      (.ok ⟨none, none, some ("Transaction validation failed: " ++ joinComma val.errors)⟩,
       vault, tracker)
    else
      let (_, tr1) := createTransaction tracker txId walletId dApp tx val.metadata now
      -- createApprovalRequest re-validates; the transaction is valid here
      match updateStatus tr1 txId .pending now with
      | .error m =>
        let (r, tr2) := itemCatch tx txId walletId dApp (some val) m now tr1
        (r, vault, tr2)
      | .ok tr2 =>
        match approval with
        | (false, reason) =>
          match updateStatus tr2 txId .rejected now with
          | .error m =>
            let (r, tr3) := itemCatch tx txId walletId dApp (some val) m now tr2
            (r, vault, tr3)
          | .ok tr3 =>
            (.ok ⟨none, none, some ("Transaction rejected: " ++ reason.getD "User denied")⟩,
             vault, tr3)
        | (true, _) =>
          match updateStatus tr2 txId .approved now with
          | .error m =>
            let (r, tr3) := itemCatch tx txId walletId dApp (some val) m now tr2
            (r, vault, tr3)
          | .ok tr3 =>
            match updateStatus tr3 txId .signing now with
            | .error m =>
              let (r, tr4) := itemCatch tx txId walletId dApp (some val) m now tr3
              (r, vault, tr4)
            | .ok tr4 =>
              match SeedVault.signTransaction env vault walletId tx true now with
              | (.error e, v2) =>
                let (r, tr5) := itemCatch tx txId walletId dApp (some val) e.message now tr4
                (r, v2, tr5)
              | (.ok sr, v2) =>
                match updateStatus tr4 txId .signed now with
                | .error m =>
                  let (r, tr5) := itemCatch tx txId walletId dApp (some val) m now tr4
                  (r, v2, tr5)
                | .ok tr5 =>
                  match addSignature tr5 txId (toHexString sr.signature) now with
                  | .error m =>
                    let (r, tr6) := itemCatch tx txId walletId dApp (some val) m now tr5
                    (r, v2, tr6)
                  | .ok tr6 =>
                    (.ok ⟨some sr.signedTransaction, some sr.signature, none⟩, v2, tr6)

/-- The `for` loop of `signTransactions`, indexed from `i`; the transaction
ids generated per item are the `txIds` parameter, the approval simulator
outcomes the `oracle` parameter. -/
def signLoop (env : SeedVault.CryptoEnv) (oracle : Nat → Bool × Option String)
    (txIds : Nat → String) (walletId dApp : String) (now : Nat) :
    Nat → List SeedVault.Tx → SeedVault.VaultState → TrackerState →
    Except String (List SignResult) × SeedVault.VaultState × TrackerState
  | _, [], v, tr => (.ok [], v, tr)
  | i, tx :: rest, v, tr =>
    match processItem env (oracle i) (txIds i) walletId dApp tx now v tr with
    | (.error s, v2, tr2) => (.error s, v2, tr2)
    | (.ok r, v2, tr2) =>
      match signLoop env oracle txIds walletId dApp now (i + 1) rest v2 tr2 with
      | (.error s, v3, tr3) => (.error s, v3, tr3)
      | (.ok rs, v3, tr3) => (.ok (r :: rs), v3, tr3)

/-- `MWAServiceImpl.signTransactions`.  Structural precondition failures
throw (`Except.error`); everything after them is caught by the outer catch,
which maps every input to the same failure entry. -/
def signTransactions (env : SeedVault.CryptoEnv) (oracle : Nat → Bool × Option String)
    (txIds : Nat → String) (st : MwaState) (session : MWASession)
    (txs : List SeedVault.Tx) (now : Nat) :
    Except String (List SignResult) × MwaState :=
  if sessionsHas st.sessions session.sessionId = false then
    (.error "Invalid session: session not found", st)
  else if session.connectionState ≠ .connected then
    (.error "Invalid session: not connected", st)
  else if session.authorizedPublicKey = none then
    (.error "Session not authorized", st)
  else
    let st1 := { st with sessions := updateSessionActivity st.sessions session.sessionId now }
    if txs = [] then (.error "No transactions provided", st1)
    else
      match SeedVault.listWallets st1.vault now with
      | (.error e, v2) =>
        (.ok (txs.map (fun _ =>
          ⟨none, none, some ("Failed to sign transactions: " ++ e.message)⟩)),
         { st1 with vault := v2 })
      | (.ok wallets, v2) =>
        match wallets.find? (fun w => some w.publicKey = session.authorizedPublicKey) with
        | none =>
          (.ok (txs.map (fun _ =>
            ⟨none, none, some ("Failed to sign transactions: Authorized wallet not found")⟩)),
           { st1 with vault := v2 })
        | some aw =>
          match signLoop env oracle txIds aw.id session.dAppIdentifier now 0 txs v2 st1.tracker with
          | (.error s, v3, tr3) =>
            (.ok (txs.map (fun _ =>
              ⟨none, none, some ("Failed to sign transactions: " ++ s)⟩)),
             { st1 with vault := v3, tracker := tr3 })
          | (.ok rs, v3, tr3) =>
            (.ok rs, { st1 with vault := v3, tracker := tr3 })

end Mwa


namespace Mwa

/-- Map with an explicit running index, mirroring the indexed `for` loop. -/
def idxMap (f : Nat → SeedVault.Tx → SignResult) : Nat → List SeedVault.Tx → List SignResult
  | _, [] => []
  | i, tx :: rest => f i tx :: idxMap f (i + 1) rest

/-- The per-item outcome of `signTransactions` when the vault can sign for
the authorized wallet with keypair `kp`: a validation failure or an
approval rejection is recorded as an error entry, an approved valid item
yields the mock signed transaction and signature.  `signTransactions`
produces exactly this, independently for every item. -/
def expectedItemResult (env : SeedVault.CryptoEnv) (kp : SeedVault.Keypair)
    (approval : Bool × Option String) (tx : SeedVault.Tx) : SignResult :=
  match validateTransaction (some tx) with
  | .error s => ⟨none, none, some ("Failed to sign transaction: " ++ s)⟩
  | .ok val =>
    if val.isValid = false then
      ⟨none, none, some ("Transaction validation failed: " ++ joinComma val.errors)⟩
    else
      match approval with
      | (false, reason) =>
        ⟨none, none, some ("Transaction rejected: " ++ reason.getD "User denied")⟩
      | (true, _) =>
        ⟨some { instructions := tx.instructions, feePayer := some kp.publicKey,
                recentBlockhash := some SeedVault.mockBlockhash,
                signatures := [(kp.publicKey, env.sign kp.secretKey SeedVault.mockMessageBytes)] },
         some (env.sign kp.secretKey SeedVault.mockMessageBytes), none⟩

/-- The projection of a vault state that signTransaction results depend
on: initialization and lock flags, the session password, and the stored
wallet fields other than timestamps for the given id.  Every loop step of
signTransactions preserves it. -/
def signView (v : SeedVault.VaultState) (wid : String) :
    Bool × Bool × Option String × Option (SeedVault.WalletProfile × Nat × String) :=
  (v.isInitialized, v.isLocked, v.masterPassword,
   (SeedVault.storageLoad v.wallets wid).map
     (fun w => (w.profile, w.publicKey, w.encryptedPrivateKey)))

/-- The per-item outcome of signTransactions against an arbitrary vault
state: a validation failure or an approval rejection is recorded as an
error entry; an approved valid item is signed through the vault, and a
vault signing error (locked vault, failed decryption, key mismatch,
missing wallet) is recorded as a failed-to-sign error entry. -/
def itemOutcome (env : SeedVault.CryptoEnv) (approval : Bool × Option String)
    (wid : String) (v : SeedVault.VaultState) (now : Nat) (tx : SeedVault.Tx) : SignResult :=
  match validateTransaction (some tx) with
  | .error s => ⟨none, none, some ("Failed to sign transaction: " ++ s)⟩
  | .ok val =>
    if val.isValid = false then
      ⟨none, none, some ("Transaction validation failed: " ++ joinComma val.errors)⟩
    else
      match approval with
      | (false, reason) =>
        ⟨none, none, some ("Transaction rejected: " ++ reason.getD "User denied")⟩
      | (true, _) =>
        match (SeedVault.signTransaction env v wid tx true now).1 with
        | .ok sr => ⟨some sr.signedTransaction, some sr.signature, none⟩
        | .error e => ⟨none, none, some ("Failed to sign transaction: " ++ e.message)⟩

end Mwa


namespace Demo

/-! ### Concrete instances used to evaluate the model on closed inputs -/

open SeedVault

/-- A concrete crypto environment: one valid mnemonic, derivation to a fixed
keypair with public key 7, password-checking decryption. -/
def demoEnv : CryptoEnv where
  validMnemonic := fun m => m = "alpha"
  mnemonicToSeed := fun m => [m.length]
  deriveFromSeed := fun _ _ => .ok ⟨7, [1, 2, 3]⟩
  encryptPayload := fun _ _ => "blob"
  decryptPayload := fun b pw => if b = "blob" ∧ pw = "pw1234" then some ⟨"alpha", [1, 2, 3]⟩ else none
  sign := fun sk msg => sk ++ [msg.length]
  toBase58 := fun n => toString n
  detWalletId := fun s => s ++ "-id"
  serialize := fun _ => .ok ""

/-- A wallet profile. -/
def demoProfile : WalletProfile :=
  { name := "main", mnemonic := none, derivationPath := "m/44h/501h/0h/0h/0h",
    network := "devnet" }

/-- An initialized, locked, empty vault. -/
def demoVaultLocked : VaultState :=
  { isInitialized := true, isLocked := true, masterPassword := none,
    wallets := [], lastActivity := 0 }

/-- An initialized, unlocked, empty vault. -/
def demoVaultUnlocked : VaultState :=
  { isInitialized := true, isLocked := false, masterPassword := some "pw1234",
    wallets := [], lastActivity := 0 }

/-- A stored wallet whose public key matches what `demoEnv` derives. -/
def demoWallet7 : Wallet :=
  { id := "7-id", profile := { demoProfile with mnemonic := some "alpha" },
    publicKey := 7, encryptedPrivateKey := "blob", createdAt := 0, lastUsed := 0 }

/-- An unlocked vault holding `demoWallet7`. -/
def demoVault7 : VaultState :=
  { isInitialized := true, isLocked := false, masterPassword := some "pw1234",
    wallets := [demoWallet7], lastActivity := 0 }

/-- A locked vault holding `demoWallet7` (wallets encrypted under pw1234). -/
def demoVault7Locked : VaultState :=
  { isInitialized := true, isLocked := true, masterPassword := none,
    wallets := [demoWallet7], lastActivity := 0 }

/-- A corrupted stored wallet: its stored public key 9 differs from the
public key 7 that re-derivation produces. -/
def demoWalletCorrupt : Wallet :=
  { id := "w1", profile := { demoProfile with mnemonic := some "alpha" },
    publicKey := 9, encryptedPrivateKey := "blob", createdAt := 0, lastUsed := 0 }

/-- An unlocked vault holding the corrupted wallet. -/
def demoVaultCorrupt : VaultState :=
  { isInitialized := true, isLocked := false, masterPassword := some "pw1234",
    wallets := [demoWalletCorrupt], lastActivity := 0 }

/-- The vault after a first successful import of "alpha". -/
def demoVaultImported : VaultState :=
  (SeedVault.importWallet demoEnv demoVaultUnlocked demoProfile "alpha" 1).2

/-- A system-program transfer instruction: recipient key 5, amount 1000. -/
def demoTransferInstr : Instr :=
  { programId := some Mwa.systemProgramId,
    keys := some [⟨some 4, some true, some true⟩, ⟨some 5, some false, some true⟩],
    data := [2, 0, 0, 0, 232, 3, 0, 0, 0, 0, 0, 0] }

/-- A valid transfer transaction. -/
def demoTx : Tx :=
  { instructions := [demoTransferInstr], feePayer := some 4,
    recentBlockhash := some "hash1", signatures := [] }

/-- A second valid transaction with different content. -/
def demoTx2 : Tx :=
  { instructions := [demoTransferInstr, demoTransferInstr], feePayer := some 6,
    recentBlockhash := some "hash2", signatures := [] }

/-- An invalid transaction: no instructions, no fee payer. -/
def demoTxInvalid : Tx :=
  { instructions := [], feePayer := none, recentBlockhash := none, signatures := [] }

/-- Metadata of `demoTx` as the validator computes it. -/
def demoMd : Mwa.TransactionMetadata :=
  match Mwa.validateTransaction (some demoTx) with
  | .ok v => v.metadata
  | .error _ => Mwa.createEmptyMetadata

/-- A tracker holding one freshly created entry with id `t`. -/
def demoTracker1 : Mwa.TrackerState :=
  (Mwa.createTransaction [] "t" "w" "d" demoTx demoMd 0).2

/-- The entry created in `demoTracker1`. -/
def demoEntry1 : Mwa.TrackerEntry :=
  (Mwa.createTransaction [] "t" "w" "d" demoTx demoMd 0).1

/-- The tracker after moving the entry to `signed`. -/
def demoTrackerSigned : Mwa.TrackerState :=
  match Mwa.updateStatus demoTracker1 "t" Mwa.TxStatus.signed 1 with
  | .ok t => t
  | .error _ => []

/-- An authorized connected session bound to public key 7. -/
def demoSession : Mwa.MWASession :=
  { sessionId := "s1", dAppIdentifier := "dapp.test", authorizedPublicKey := some 7,
    connectionState := .connected, permissions := [], authorizedAt := some 0,
    lastActivity := 0 }

/-- An MWA state with the session table holding `demoSession` and the
unlocked single-wallet vault. -/
def demoMwaState : Mwa.MwaState :=
  { sessions := [("s1", demoSession)], vault := demoVault7, tracker := [] }

/-- An approval oracle that approves every item. -/
def demoOracleApprove : Nat → Bool × Option String := fun _ => (true, none)

/-- An approval oracle that rejects item 0 with a reason. -/
def demoOracleReject : Nat → Bool × Option String := fun _ => (false, some "nope")

/-- Transaction id generator for the demo batches. -/
def demoTxIds : Nat → String := fun i => "tx_" ++ toString i

/-- A trivial block cipher (byte-wise reversal) satisfying the cipher laws;
it stands in for AES in closed evaluations. -/
def demoCipher : CryptoModel.BlockCipher where
  enc := fun _ b => b.reverse
  dec := fun _ b => b.reverse
  length_enc := by intro k b hb; simpa using hb
  lt_enc := by
    intro k b hb hlt x hx
    exact hlt x (List.mem_reverse.mp hx)
  dec_enc := by intro k b hb hlt; simp

/-- A trivial key derivation function. -/
def demoKdf : String → List Nat → List Nat := fun pw salt => salt ++ [pw.length]

/-- An authorized connected session bound to public key 9, the stored key
of the corrupted wallet. -/
def demoSessionCorrupt : Mwa.MWASession :=
  { sessionId := "s2", dAppIdentifier := "dapp.test", authorizedPublicKey := some 9,
    connectionState := .connected, permissions := [], authorizedAt := some 0,
    lastActivity := 0 }

/-- An MWA state whose vault holds only the corrupted wallet, so every
vault signing attempt fails with the key-mismatch error. -/
def demoMwaStateCorrupt : Mwa.MwaState :=
  { sessions := [("s2", demoSessionCorrupt)], vault := demoVaultCorrupt, tracker := [] }

end Demo

/-! ## Theorems -/

open CryptoModel

theorem digitCh_toNat {d : Nat} (h : d < 10) : (Char.ofNat (48 + d)).toNat = 48 + d := by
  interval_cases d <;> decide

theorem digitCh_isDigit {d : Nat} (h : d < 10) : (Char.ofNat (48 + d)).isDigit = true := by
  interval_cases d <;> decide

theorem natDigits_all_isDigit (n : Nat) : ∀ c ∈ natDigits n, c.isDigit = true := by
  unfold natDigits
  split
  · intro c hc
    simp only [List.mem_singleton] at hc
    subst hc
    decide
  · intro c hc
    simp only [List.mem_reverse, List.mem_map] at hc
    obtain ⟨d, hd, rfl⟩ := hc
    exact digitCh_isDigit (Nat.digits_lt_base (by norm_num) hd)

theorem natDigits_ne_nil (n : Nat) : natDigits n ≠ [] := by
  unfold natDigits
  split
  · simp
  · simp only [ne_eq, List.reverse_eq_nil_iff, List.map_eq_nil_iff]
    intro hcon
    simp only [Nat.digits_eq_nil_iff_eq_zero] at hcon
    omega

theorem foldr_digits_chars (l : List Nat) (h : ∀ d ∈ l, d < 10) :
    List.foldr (fun c a => 10 * a + (Char.toNat c - 48)) 0
      (l.map (fun d => Char.ofNat (48 + d))) = Nat.ofDigits 10 l := by
  induction l with
  | nil => simp [Nat.ofDigits]
  | cons d rest ih =>
    simp only [List.map_cons, List.foldr_cons]
    rw [ih (fun x hx => h x (List.mem_cons_of_mem _ hx))]
    rw [digitCh_toNat (h d (List.mem_cons_self _ _))]
    rw [Nat.ofDigits_cons]
    omega

theorem digitsVal_natDigits (n : Nat) : digitsVal (natDigits n) = n := by
  unfold digitsVal natDigits
  split
  · rename_i h
    subst h
    decide
  · rw [List.foldl_reverse]
    rw [foldr_digits_chars _ (fun d hd => Nat.digits_lt_base (by norm_num) hd)]
    exact Nat.ofDigits_digits 10 n

theorem takeWhile_append_stop {p : Char → Bool} :
    ∀ (l1 : List Char) (c : Char) (l2 : List Char), (∀ x ∈ l1, p x = true) → p c = false →
      (l1 ++ c :: l2).takeWhile p = l1 ∧ (l1 ++ c :: l2).dropWhile p = c :: l2 := by
  intro l1
  induction l1 with
  | nil =>
    intro c l2 _ hc
    simp [List.takeWhile, List.dropWhile, hc]
  | cons a t ih =>
    intro c l2 hall hc
    have ha : p a = true := hall a (List.mem_cons_self _ _)
    have := ih c l2 (fun x hx => hall x (List.mem_cons_of_mem _ hx)) hc
    simp [List.takeWhile, List.dropWhile, ha, this.1, this.2]

theorem tick_not_digit : Char.isDigit tick = false := by decide

theorem parseSegHardened_format (n : Nat) (rest : List Char) :
    parseSegHardened (slash :: (natDigits n ++ tick :: rest)) = some (n, rest) := by
  have hsplit := takeWhile_append_stop (natDigits n) tick rest
    (natDigits_all_isDigit n) tick_not_digit
  unfold parseSegHardened
  simp only [if_pos rfl, hsplit.1, hsplit.2]
  rw [if_neg (natDigits_ne_nil n)]
  simp [digitsVal_natDigits]

theorem parseHardened_format (c : DerivationPathComponents) :
    parseHardened (formatDerivationPath c) = some c := by
  unfold formatDerivationPath
  simp only [List.cons_append, List.append_assoc]
  simp only [parseHardened, reduceIte]
  simp only [parseSegHardened_format, reduceIte]

/-- C8: for every components value with nonnegative integer fields,
`parseDerivationPath (formatDerivationPath c)` returns exactly `c` (the
formatter emits the fully hardened form, which the first regular
expression of the parser accepts, and decimal rendering round-trips). -/
theorem parse_format_roundtrip (c : DerivationPathComponents) :
    parseDerivationPath (formatDerivationPath c) = some c := by
  unfold parseDerivationPath
  rw [parseHardened_format]

/-! ### C1: the VaultLocked gate -/

theorem ensureUnlocked_locked {v : SeedVault.VaultState}
    (hInit : v.isInitialized = true) (hLock : v.isLocked = true) :
    SeedVault.ensureUnlocked v = some (SeedVault.mkErr .VAULT_LOCKED "Seed Vault is locked") := by
  simp [SeedVault.ensureUnlocked, SeedVault.ensureInitialized, hInit, hLock]

/-- C1 (amended): on an initialized, locked vault every wallet, key and
signing operation — generateWallet, importWallet, exportWallet,
listWallets, getWallet, deleteWallet, deriveKeypair,
deriveKeypairFromComponents, getPublicKey, signTransaction, signMessage —
fails with a VaultLocked error and leaves the state unchanged, while `lock`
is an idempotent no-op and `reset` succeeds (both require initialization
only). -/
theorem vault_locked_rejects_stateful_ops
    (env : SeedVault.CryptoEnv) (v : SeedVault.VaultState)
    (profile : SeedVault.WalletProfile) (gm fid m wid path : String)
    (comps : CryptoModel.DerivationPathComponents) (tx : SeedVault.Tx)
    (msg : List Nat) (auto : Bool) (now : Nat)
    (hInit : v.isInitialized = true) (hLock : v.isLocked = true) :
    SeedVault.generateWallet env v profile gm fid now =
      (.error ⟨.VAULT_LOCKED, "Seed Vault is locked"⟩, v) ∧
    SeedVault.importWallet env v profile m now =
      (.error ⟨.VAULT_LOCKED, "Seed Vault is locked"⟩, v) ∧
    SeedVault.exportWallet env v wid now =
      (.error ⟨.VAULT_LOCKED, "Seed Vault is locked"⟩, v) ∧
    SeedVault.listWallets v now =
      (.error ⟨.VAULT_LOCKED, "Seed Vault is locked"⟩, v) ∧
    SeedVault.getWallet v wid now =
      (.error ⟨.VAULT_LOCKED, "Seed Vault is locked"⟩, v) ∧
    SeedVault.deleteWallet v wid now =
      (.error ⟨.VAULT_LOCKED, "Seed Vault is locked"⟩, v) ∧
    SeedVault.deriveKeypair env v wid path now =
      (.error ⟨.VAULT_LOCKED, "Seed Vault is locked"⟩, v) ∧
    SeedVault.deriveKeypairFromComponents env v wid comps now =
      (.error ⟨.VAULT_LOCKED, "Seed Vault is locked"⟩, v) ∧
    SeedVault.getPublicKey v wid now =
      (.error ⟨.VAULT_LOCKED, "Seed Vault is locked"⟩, v) ∧
    SeedVault.signTransaction env v wid tx auto now =
      (.error ⟨.VAULT_LOCKED, "Seed Vault is locked"⟩, v) ∧
    SeedVault.signMessage env v wid msg auto now =
      (.error ⟨.VAULT_LOCKED, "Seed Vault is locked"⟩, v) ∧
    SeedVault.lock v = (.ok (), v) ∧
    SeedVault.reset v =
      (.ok (), { v with wallets := [], isLocked := true, masterPassword := none }) := by
  have hEns := ensureUnlocked_locked hInit hLock
  refine ⟨?_, ?_, ?_, ?_, ?_, ?_, ?_, ?_, ?_, ?_, ?_, ?_, ?_⟩
  · simp [SeedVault.generateWallet, hEns, SeedVault.mkErr]
  · simp [SeedVault.importWallet, hEns, SeedVault.mkErr]
  · simp [SeedVault.exportWallet, hEns, SeedVault.mkErr]
  · simp [SeedVault.listWallets, hEns, SeedVault.mkErr]
  · simp [SeedVault.getWallet, hEns, SeedVault.mkErr]
  · simp [SeedVault.deleteWallet, hEns, SeedVault.mkErr]
  · simp [SeedVault.deriveKeypair, hEns, SeedVault.mkErr]
  · simp [SeedVault.deriveKeypairFromComponents, SeedVault.deriveKeypair, hEns, SeedVault.mkErr]
  · simp [SeedVault.getPublicKey, hEns, SeedVault.mkErr]
  · simp [SeedVault.signTransaction, hEns, SeedVault.mkErr]
  · simp [SeedVault.signMessage, hEns, SeedVault.mkErr]
  · simp [SeedVault.lock, SeedVault.ensureInitialized, hInit, hLock]
  · simp [SeedVault.reset, SeedVault.ensureInitialized, hInit]

/-- C1 counterexample: on a concrete initialized, locked vault, `lock`
returns successfully (idempotent no-op) and `reset` succeeds — neither
throws the VaultLocked error the claim asserts for them. -/
theorem vault_locked_lock_reset_no_error :
    SeedVault.lock Demo.demoVaultLocked = (.ok (), Demo.demoVaultLocked) ∧
    (SeedVault.reset Demo.demoVaultLocked).1 = .ok () := by
  exact ⟨rfl, rfl⟩

/-- C1 witness: the amended theorem applied to a concrete locked vault. -/
theorem vault_locked_rejects_stateful_ops_witness :
    SeedVault.listWallets Demo.demoVaultLocked 5 =
      (.error ⟨.VAULT_LOCKED, "Seed Vault is locked"⟩, Demo.demoVaultLocked) ∧
    SeedVault.signMessage Demo.demoEnv Demo.demoVaultLocked "w1" [5] true 5 =
      (.error ⟨.VAULT_LOCKED, "Seed Vault is locked"⟩, Demo.demoVaultLocked) ∧
    SeedVault.lock Demo.demoVaultLocked = (.ok (), Demo.demoVaultLocked) := by
  have h := vault_locked_rejects_stateful_ops Demo.demoEnv Demo.demoVaultLocked
    Demo.demoProfile "g" "f" "m" "w1" "p" ⟨44, 501, 0, 0, 0⟩ Demo.demoTx [5] true 5 rfl rfl
  exact ⟨h.2.2.2.1, h.2.2.2.2.2.2.2.2.2.2.1, h.2.2.2.2.2.2.2.2.2.2.2.1⟩

/-! ### C3: duplicate import -/

/-- C3 counterexample: on a concrete unlocked vault already holding the
wallet with public key 7, importing a mnemonic that derives public key 7
does fail and leaves the wallet set unchanged — but the thrown error does
not carry a duplicate-wallet code: its code is WALLET_NOT_FOUND.  The
`ErrCode` type (the `SeedVaultErrorCode` union of the source, reproduced
member for member) has no DuplicateWallet code at all, so the claim as
stated holds for no input. -/
theorem import_duplicate_error_code :
    SeedVault.importWallet Demo.demoEnv Demo.demoVault7 Demo.demoProfile "alpha" 5 =
      (.error ⟨.WALLET_NOT_FOUND, "Wallet with this public key already exists"⟩,
       { Demo.demoVault7 with lastActivity := 5 }) ∧
    (SeedVault.importWallet Demo.demoEnv Demo.demoVault7 Demo.demoProfile "alpha" 5).2.wallets =
      Demo.demoVault7.wallets := by
  exact ⟨rfl, rfl⟩

/-! ### C4: re-import of the same mnemonic -/

theorem insertDesc_perm (w : SeedVault.Wallet) (l : List SeedVault.Wallet) :
    (SeedVault.insertDesc w l).Perm (w :: l) := by
  induction l with
  | nil => exact List.Perm.refl _
  | cons x xs ih =>
    unfold SeedVault.insertDesc
    split
    · exact List.Perm.refl _
    · exact (List.Perm.cons x ih).trans (List.Perm.swap w x xs)

theorem sortDesc_perm (l : List SeedVault.Wallet) : (SeedVault.sortDesc l).Perm l := by
  induction l with
  | nil => exact List.Perm.refl _
  | cons x xs ih =>
    exact (insertDesc_perm x (SeedVault.sortDesc xs)).trans (List.Perm.cons x ih)

theorem loadAllWallets_perm (ws : List SeedVault.Wallet) :
    (SeedVault.loadAllWallets ws).Perm ws := sortDesc_perm ws

theorem mem_loadAllWallets {ws : List SeedVault.Wallet} {w : SeedVault.Wallet} :
    w ∈ SeedVault.loadAllWallets ws ↔ w ∈ ws := (loadAllWallets_perm ws).mem_iff

theorem mem_storageSave_self (ws : List SeedVault.Wallet) (w : SeedVault.Wallet) :
    w ∈ SeedVault.storageSave ws w := by
  unfold SeedVault.storageSave
  split
  · rename_i hany
    obtain ⟨x, hx, hxid⟩ := List.any_eq_true.mp hany
    refine List.mem_map.mpr ⟨x, hx, ?_⟩
    simp only [decide_eq_true_eq] at hxid
    simp [hxid]
  · simp

theorem countP_replace_aux (w : SeedVault.Wallet) (p : SeedVault.Wallet → Bool)
    (hp : p w = true) :
    ∀ ws : List SeedVault.Wallet, (∀ x ∈ ws, p x = false) →
      (ws.map SeedVault.Wallet.id).Nodup →
      ws.any (fun x => x.id = w.id) = true →
      (ws.map (fun x => if x.id = w.id then w else x)).countP p = 1 := by
  intro ws
  induction ws with
  | nil => simp
  | cons a t ih =>
    intro hws hnd hany
    by_cases ha : a.id = w.id
    · have hrest : ∀ x ∈ t, (if x.id = w.id then w else x) = x := by
        intro x hx
        have hnin : a.id ∉ t.map SeedVault.Wallet.id := (List.nodup_cons.mp hnd).1
        have : x.id ≠ w.id := by
          intro hxw
          exact hnin (List.mem_map.mpr ⟨x, hx, by rw [hxw, ha]⟩)
        simp [this]
      have hmap : t.map (fun x => if x.id = w.id then w else x) = t :=
        (List.map_congr_left hrest).trans (List.map_id t)
      have ht0 : t.countP p = 0 := by
        refine List.countP_eq_zero.mpr ?_
        intro x hx
        simp [hws x (List.mem_cons_of_mem _ hx)]
      simp [List.countP_cons, ha, hp, hmap, ht0]
    · have hpa : p a = false := hws a (List.mem_cons_self _ _)
      have hany2 : t.any (fun x => x.id = w.id) = true := by
        rcases List.any_eq_true.mp hany with ⟨x, hx, hxid⟩
        rcases List.mem_cons.mp hx with rfl | hxt
        · exact absurd (by simpa using hxid) ha
        · exact List.any_eq_true.mpr ⟨x, hxt, hxid⟩
      have := ih (fun x hx => hws x (List.mem_cons_of_mem _ hx))
        (List.nodup_cons.mp hnd).2 hany2
      simp [List.countP_cons, ha, hpa, this]

theorem countP_storageSave (ws : List SeedVault.Wallet) (w : SeedVault.Wallet)
    (p : SeedVault.Wallet → Bool) (hp : p w = true)
    (hws : ∀ x ∈ ws, p x = false) (hnd : (ws.map SeedVault.Wallet.id).Nodup) :
    (SeedVault.storageSave ws w).countP p = 1 := by
  unfold SeedVault.storageSave
  split
  · rename_i hany
    exact countP_replace_aux w p hp ws hws hnd hany
  · have ht0 : ws.countP p = 0 := by
      refine List.countP_eq_zero.mpr ?_
      intro x hx
      simp [hws x hx]
    simp [List.countP_append, ht0, List.countP_cons, hp]

/-- C4 (amended): importing a valid mnemonic into an unlocked vault that does
not yet hold its public key succeeds, with an id that is deterministic from
the public key; importing the same mnemonic again is rejected (the
duplicate check throws, with code WALLET_NOT_FOUND and the already-exists
message) rather than returning the same wallet, and no duplicate is
created: the vault still holds exactly one wallet with that public key and
the failed second call leaves the wallet set unchanged. -/
theorem vault_reimport_rejected_no_duplicate
    (env : SeedVault.CryptoEnv) (v : SeedVault.VaultState)
    (profile : SeedVault.WalletProfile) (m : String) (kp : SeedVault.Keypair)
    (now now2 : Nat)
    (hInit : v.isInitialized = true) (hUnlock : v.isLocked = false)
    (hval : env.validMnemonic m = true)
    (hder : env.deriveFromSeed (env.mnemonicToSeed m) profile.derivationPath = .ok kp)
    (hfresh : ∀ w ∈ v.wallets, w.publicKey ≠ kp.publicKey)
    (hnd : (v.wallets.map SeedVault.Wallet.id).Nodup) :
    ∃ w1 v2,
      SeedVault.importWallet env v profile m now = (.ok w1, v2) ∧
      w1.id = env.detWalletId (env.toBase58 kp.publicKey) ∧
      w1.publicKey = kp.publicKey ∧
      (SeedVault.importWallet env v2 profile m now2).1 =
        .error ⟨.WALLET_NOT_FOUND, "Wallet with this public key already exists"⟩ ∧
      (SeedVault.importWallet env v2 profile m now2).2.wallets = v2.wallets ∧
      v2.wallets.countP (fun x => x.publicKey = kp.publicKey) = 1 := by
  have hEns : SeedVault.ensureUnlocked v = none := by
    simp [SeedVault.ensureUnlocked, SeedVault.ensureInitialized, hInit, hUnlock]
  have hderive : SeedVault.deriveKeypairFromMnemonic env m profile.derivationPath = .ok kp := by
    simp [SeedVault.deriveKeypairFromMnemonic, hval, hder]
  have hfind : (SeedVault.loadAllWallets v.wallets).find?
      (fun w => w.publicKey = kp.publicKey) = none := by
    refine List.find?_eq_none.mpr ?_
    intro x hx
    simp [hfresh x (mem_loadAllWallets.mp hx)]
  refine ⟨{ id := env.detWalletId (env.toBase58 kp.publicKey),
            profile := { profile with mnemonic := some m },
            publicKey := kp.publicKey,
            encryptedPrivateKey :=
              env.encryptPayload ⟨m, kp.secretKey⟩ (v.masterPassword.getD ""),
            createdAt := now, lastUsed := now },
          { v with
            lastActivity := now,
            wallets := SeedVault.storageSave v.wallets
              { id := env.detWalletId (env.toBase58 kp.publicKey),
                profile := { profile with mnemonic := some m },
                publicKey := kp.publicKey,
                encryptedPrivateKey :=
                  env.encryptPayload ⟨m, kp.secretKey⟩ (v.masterPassword.getD ""),
                createdAt := now, lastUsed := now } },
          ?_, rfl, rfl, ?_, ?_, ?_⟩
  · simp only [SeedVault.importWallet, SeedVault.updateActivity, hEns, hval, hderive, hfind]
    simp
  · have hsome : (SeedVault.loadAllWallets (SeedVault.storageSave v.wallets
        { id := env.detWalletId (env.toBase58 kp.publicKey),
          profile := { profile with mnemonic := some m },
          publicKey := kp.publicKey,
          encryptedPrivateKey :=
            env.encryptPayload ⟨m, kp.secretKey⟩ (v.masterPassword.getD ""),
          createdAt := now, lastUsed := now })).find?
        (fun w => w.publicKey = kp.publicKey) |>.isSome := by
      refine List.find?_isSome.mpr ⟨_, mem_loadAllWallets.mpr (mem_storageSave_self _ _), ?_⟩
      simp
    obtain ⟨y, hy⟩ := Option.isSome_iff_exists.mp hsome
    simp only [SeedVault.importWallet, SeedVault.ensureUnlocked, SeedVault.ensureInitialized,
      SeedVault.updateActivity, hInit, hUnlock, hval, hderive]
    simp only [hy]
    simp [SeedVault.mkErr]
  · have hsome : (SeedVault.loadAllWallets (SeedVault.storageSave v.wallets
        { id := env.detWalletId (env.toBase58 kp.publicKey),
          profile := { profile with mnemonic := some m },
          publicKey := kp.publicKey,
          encryptedPrivateKey :=
            env.encryptPayload ⟨m, kp.secretKey⟩ (v.masterPassword.getD ""),
          createdAt := now, lastUsed := now })).find?
        (fun w => w.publicKey = kp.publicKey) |>.isSome := by
      refine List.find?_isSome.mpr ⟨_, mem_loadAllWallets.mpr (mem_storageSave_self _ _), ?_⟩
      simp
    obtain ⟨y, hy⟩ := Option.isSome_iff_exists.mp hsome
    simp only [SeedVault.importWallet, SeedVault.ensureUnlocked, SeedVault.ensureInitialized,
      SeedVault.updateActivity, hInit, hUnlock, hval, hderive]
    simp only [hy]
    simp [SeedVault.mkErr]
  · refine countP_storageSave v.wallets _ _ ?_ ?_ hnd
    · simp
    · intro x hx
      simp [hfresh x hx]

/-- C4 counterexample: importing the same mnemonic a second time into the
concrete vault does not return a wallet at all — the call fails with the
duplicate rejection, refuting "returns a wallet with the same id on both
calls". -/
theorem vault_reimport_counterexample :
    (SeedVault.importWallet Demo.demoEnv Demo.demoVaultImported Demo.demoProfile "alpha" 2).1 =
      .error ⟨.WALLET_NOT_FOUND, "Wallet with this public key already exists"⟩ := by
  rfl

/-- C4 witness: the amended theorem applied to the concrete environment,
instantiating the duplicate rejection and the exactly-one-wallet count. -/
theorem vault_reimport_rejected_no_duplicate_witness :
    (SeedVault.importWallet Demo.demoEnv Demo.demoVaultImported Demo.demoProfile "alpha" 2).2.wallets =
      Demo.demoVaultImported.wallets ∧
    Demo.demoVaultImported.wallets.countP (fun x => x.publicKey = 7) = 1 := by
  obtain ⟨w1, v2, h1, _, _, _, h5, h6⟩ :=
    vault_reimport_rejected_no_duplicate Demo.demoEnv Demo.demoVaultUnlocked Demo.demoProfile
      "alpha" ⟨7, [1, 2, 3]⟩ 1 2 rfl rfl (by decide) rfl
      (by simp [Demo.demoVaultUnlocked]) (by simp [Demo.demoVaultUnlocked])
  have hv2 : Demo.demoVaultImported = v2 := by
    unfold Demo.demoVaultImported
    rw [h1]
  rw [hv2]
  exact ⟨h5, h6⟩

/-! ### C5: the re-derivation public-key assertion -/

/-- C5 (amended): on an unlocked vault and an existing wallet whose stored
public key differs from the re-derived one, `signTransaction` fails and
returns no signature, but `signMessage` performs no such assertion: it
returns a signature made with the derived keypair even though the derived
public key differs from the stored one. -/
theorem sign_pubkey_match_asymmetry
    (env : SeedVault.CryptoEnv) (v : SeedVault.VaultState) (wid : String)
    (w : SeedVault.Wallet) (payload : SeedVault.SecretPayload)
    (kp : SeedVault.Keypair) (tx : SeedVault.Tx) (msg : List Nat)
    (auto : Bool) (now : Nat)
    (hInit : v.isInitialized = true) (hUnlock : v.isLocked = false)
    (hload : SeedVault.storageLoad v.wallets wid = some w)
    (hdec : env.decryptPayload w.encryptedPrivateKey (v.masterPassword.getD "") = some payload)
    (hder : SeedVault.deriveKeypairFromMnemonic env payload.mnemonic
              w.profile.derivationPath = .ok kp)
    (hne : kp.publicKey ≠ w.publicKey) :
    (∃ e, (SeedVault.signTransaction env v wid tx auto now).1 = .error e) ∧
    (SeedVault.signMessage env v wid msg auto now).1 =
      .ok ⟨env.sign kp.secretKey msg, msg, kp.publicKey, now⟩ := by
  have hEns : SeedVault.ensureUnlocked v = none := by
    simp [SeedVault.ensureUnlocked, SeedVault.ensureInitialized, hInit, hUnlock]
  constructor
  · cases auto with
    | true =>
      refine ⟨SeedVault.mkErr .SIGNING_FAILED "Derived keypair does not match wallet public key", ?_⟩
      simp only [SeedVault.signTransaction, SeedVault.updateActivity, hEns, hload, hdec, hder]
      simp [hne]
    | false =>
      cases hser : env.serialize tx with
      | error s =>
        refine ⟨SeedVault.mkErr .SIGNING_FAILED ("Failed to sign transaction: " ++ s), ?_⟩
        simp only [SeedVault.signTransaction, SeedVault.updateActivity, hEns, hload]
        simp [hser]
      | ok r =>
        refine ⟨SeedVault.mkErr .SIGNING_FAILED "Derived keypair does not match wallet public key", ?_⟩
        simp only [SeedVault.signTransaction, SeedVault.updateActivity, hEns, hload]
        simp only [hser]
        simp only [hdec, hder]
        simp [hne]
  · simp only [SeedVault.signMessage, SeedVault.updateActivity, hEns, hload, hdec, hder]

/-- C5 counterexample: on the concrete corrupted wallet (stored public key
9, derived public key 7) `signMessage` succeeds and returns a signature —
the claim that both signing entry points fail on a mismatch is false. -/
theorem signMessage_no_pubkey_check_counterexample :
    Demo.demoWalletCorrupt.publicKey = 9 ∧
    (SeedVault.signMessage Demo.demoEnv Demo.demoVaultCorrupt "w1" [5] true 1).1 =
      .ok ⟨[1, 2, 3, 1], [5], 7, 1⟩ := by
  exact ⟨rfl, rfl⟩

/-- C5 witness: the amended theorem applied to the corrupted concrete
vault. -/
theorem sign_pubkey_match_asymmetry_witness :
    (∃ e, (SeedVault.signTransaction Demo.demoEnv Demo.demoVaultCorrupt "w1"
      Demo.demoTx true 1).1 = .error e) ∧
    (SeedVault.signMessage Demo.demoEnv Demo.demoVaultCorrupt "w1" [5] true 1).1 =
      .ok ⟨Demo.demoEnv.sign [1, 2, 3] [5], [5], 7, 1⟩ := by
  exact sign_pubkey_match_asymmetry Demo.demoEnv Demo.demoVaultCorrupt "w1"
    Demo.demoWalletCorrupt ⟨"alpha", [1, 2, 3]⟩ ⟨7, [1, 2, 3]⟩ Demo.demoTx [5] true 1
    rfl rfl rfl rfl rfl (by decide)

/-! ### C6: tracker status transitions -/

theorem find?_map_replace (id : String) (e e2 : Mwa.TrackerEntry) (he2 : e2.id = id) :
    ∀ t : List Mwa.TrackerEntry,
      t.find? (fun x => x.id = id) = some e →
      (t.map (fun x => if x.id = e2.id then e2 else x)).find? (fun x => x.id = id) = some e2 := by
  intro t
  induction t with
  | nil => simp
  | cons a rest ih =>
    intro hfind
    by_cases ha : a.id = id
    · have : (if a.id = e2.id then e2 else a) = e2 := by simp [ha, he2]
      simp only [List.map_cons, this]
      simp [List.find?_cons, he2]
    · have hcond : a.id ≠ e2.id := by rw [he2]; exact ha
      have : (if a.id = e2.id then e2 else a) = a := by simp [hcond]
      simp only [List.map_cons, this]
      rw [List.find?_cons_of_neg _ (by simpa using ha)] at hfind
      rw [List.find?_cons_of_neg _ (by simpa using ha)]
      exact ih hfind

theorem trackerGet_set (t : Mwa.TrackerState) (id : String) (e e2 : Mwa.TrackerEntry)
    (he : Mwa.trackerGet t id = some e) (he2 : e2.id = id) :
    Mwa.trackerGet (Mwa.trackerSet t e2) id = some e2 := by
  unfold Mwa.trackerGet at he ⊢
  unfold Mwa.trackerSet
  have hmem := List.mem_of_find?_eq_some he
  have hpe : e.id = id := by simpa using List.find?_some he
  have hany : t.any (fun x => x.id = e2.id) = true :=
    List.any_eq_true.mpr ⟨e, hmem, by simp [hpe, he2]⟩
  rw [if_pos hany]
  exact find?_map_replace id e e2 he2 t he

/-- C6 (amended): `updateStatus` enforces no lifecycle graph at all — for
every entry present in the tracker it succeeds with any requested target
status, sets exactly that status, and appends one `status_change` event
recording the previous and new status; it fails only for an unknown id.
In particular backward moves such as `signed` to `pending` are accepted. -/
theorem tracker_updateStatus_no_transition_check
    (t : Mwa.TrackerState) (id : String) (st : Mwa.TxStatus) (now : Nat) :
    (∀ e, Mwa.trackerGet t id = some e →
      ∃ t2, Mwa.updateStatus t id st now = .ok t2 ∧
        (Mwa.trackerGet t2 id).map (fun x => x.status) = some st ∧
        (Mwa.trackerGet t2 id).map (fun x => x.events.length) =
          some (e.events.length + 1) ∧
        (Mwa.trackerGet t2 id).bind (fun x => x.events.getLast?) =
          some ⟨"status_change", now, some e.status, some st,
            "Status changed from " ++ Mwa.statusName e.status ++ " to " ++ Mwa.statusName st⟩) ∧
    (Mwa.trackerGet t id = none →
      Mwa.updateStatus t id st now = .error ("Transaction " ++ id ++ " not found")) := by
  constructor
  · intro e he
    have hpe : e.id = id := by simpa using List.find?_some he
    have hset := trackerGet_set t id e
      { e with
        status := st, updatedAt := now,
        approvedAt := if st = .approved then some now else e.approvedAt,
        signedAt := if st = .signed then some now else e.signedAt,
        submittedAt := if st = .submitted then some now else e.submittedAt,
        confirmedAt := if st = .confirmed then some now else e.confirmedAt,
        events := e.events ++ [⟨"status_change", now, some e.status, some st,
          "Status changed from " ++ Mwa.statusName e.status ++ " to " ++ Mwa.statusName st⟩] }
      he hpe
    refine ⟨Mwa.trackerSet t
      { e with
        status := st, updatedAt := now,
        approvedAt := if st = .approved then some now else e.approvedAt,
        signedAt := if st = .signed then some now else e.signedAt,
        submittedAt := if st = .submitted then some now else e.submittedAt,
        confirmedAt := if st = .confirmed then some now else e.confirmedAt,
        events := e.events ++ [⟨"status_change", now, some e.status, some st,
          "Status changed from " ++ Mwa.statusName e.status ++ " to " ++ Mwa.statusName st⟩] },
      ?_, ?_, ?_, ?_⟩
    · simp only [Mwa.updateStatus, he]
    · rw [hset]
      simp
    · rw [hset]
      simp
    · rw [hset]
      simp
  · intro hnone
    simp only [Mwa.updateStatus, hnone]

/-- C6 counterexample: on a concrete tracker the entry moves `pending` to
`signed` and then back to `pending` — `updateStatus` accepts a transition
that is not a legal successor, refuting the claim. -/
theorem tracker_backward_transition_counterexample :
    Mwa.updateStatus Demo.demoTracker1 "t" .signed 1 = .ok Demo.demoTrackerSigned ∧
    (Mwa.trackerGet Demo.demoTrackerSigned "t").map (fun e => e.status) =
      some .signed ∧
    (match Mwa.updateStatus Demo.demoTrackerSigned "t" .pending 2 with
     | .ok t2 => (Mwa.trackerGet t2 "t").map (fun e => e.status)
     | .error _ => none) = some .pending := by
  exact ⟨rfl, rfl, rfl⟩

/-- C6 witness: the amended theorem applied to the concrete tracker, moving
the freshly created entry straight to `signed`. -/
theorem tracker_updateStatus_no_transition_check_witness :
    ∃ t2, Mwa.updateStatus Demo.demoTracker1 "t" .signed 1 = .ok t2 ∧
      (Mwa.trackerGet t2 "t").map (fun x => x.status) = some .signed ∧
      (Mwa.trackerGet t2 "t").map (fun x => x.events.length) =
        some (Demo.demoEntry1.events.length + 1) ∧
      (Mwa.trackerGet t2 "t").bind (fun x => x.events.getLast?) =
        some ⟨"status_change", 1, some Demo.demoEntry1.status, some .signed,
          "Status changed from " ++ Mwa.statusName Demo.demoEntry1.status ++ " to " ++
            Mwa.statusName .signed⟩ :=
  (tracker_updateStatus_no_transition_check Demo.demoTracker1 "t" .signed 1).1
    Demo.demoEntry1 rfl

/-! ### C9: the signature does not depend on the transaction -/

/-- C9: with auto-approval on an unlocked vault and a healthy wallet, the
signature of `signTransaction` is computed over the constant mock message:
any two transactions with at least one instruction receive byte-identical
signatures, and the returned signed transaction carries the hard-coded
recent blockhash regardless of the input. -/
theorem signTransaction_signature_ignores_transaction
    (env : SeedVault.CryptoEnv) (v : SeedVault.VaultState) (wid : String)
    (w : SeedVault.Wallet) (payload : SeedVault.SecretPayload)
    (kp : SeedVault.Keypair) (tx1 tx2 : SeedVault.Tx) (now now2 : Nat)
    (hInit : v.isInitialized = true) (hUnlock : v.isLocked = false)
    (hload : SeedVault.storageLoad v.wallets wid = some w)
    (hdec : env.decryptPayload w.encryptedPrivateKey (v.masterPassword.getD "") = some payload)
    (hder : SeedVault.deriveKeypairFromMnemonic env payload.mnemonic
              w.profile.derivationPath = .ok kp)
    (hmatch : kp.publicKey = w.publicKey)
    (h1 : tx1.instructions ≠ []) (h2 : tx2.instructions ≠ []) :
    (SeedVault.signTransaction env v wid tx1 true now).1 =
      .ok ⟨env.sign kp.secretKey SeedVault.mockMessageBytes,
           { instructions := tx1.instructions, feePayer := some kp.publicKey,
             recentBlockhash := some SeedVault.mockBlockhash,
             signatures := [(kp.publicKey, env.sign kp.secretKey SeedVault.mockMessageBytes)] },
           now⟩ ∧
    (SeedVault.signTransaction env v wid tx2 true now2).1 =
      .ok ⟨env.sign kp.secretKey SeedVault.mockMessageBytes,
           { instructions := tx2.instructions, feePayer := some kp.publicKey,
             recentBlockhash := some SeedVault.mockBlockhash,
             signatures := [(kp.publicKey, env.sign kp.secretKey SeedVault.mockMessageBytes)] },
           now2⟩ ∧
    (∀ r1 r2, (SeedVault.signTransaction env v wid tx1 true now).1 = .ok r1 →
      (SeedVault.signTransaction env v wid tx2 true now2).1 = .ok r2 →
      r1.signature = r2.signature ∧
      r1.signedTransaction.recentBlockhash = some SeedVault.mockBlockhash ∧
      r2.signedTransaction.recentBlockhash = some SeedVault.mockBlockhash) := by
  have hEns : SeedVault.ensureUnlocked v = none := by
    simp [SeedVault.ensureUnlocked, SeedVault.ensureInitialized, hInit, hUnlock]
  have key : ∀ (tx : SeedVault.Tx) (n : Nat), tx.instructions ≠ [] →
      (SeedVault.signTransaction env v wid tx true n).1 =
      .ok ⟨env.sign kp.secretKey SeedVault.mockMessageBytes,
           { instructions := tx.instructions, feePayer := some kp.publicKey,
             recentBlockhash := some SeedVault.mockBlockhash,
             signatures := [(kp.publicKey, env.sign kp.secretKey SeedVault.mockMessageBytes)] },
           n⟩ := by
    intro tx n hne
    simp only [SeedVault.signTransaction, SeedVault.updateActivity, hEns, hload, hdec, hder]
    simp [hmatch, hne]
  refine ⟨key tx1 now h1, key tx2 now2 h2, ?_⟩
  intro r1 r2 hr1 hr2
  rw [key tx1 now h1] at hr1
  rw [key tx2 now2 h2] at hr2
  cases hr1
  cases hr2
  exact ⟨rfl, rfl, rfl⟩

/-- C9 witness: the theorem applied to the concrete healthy vault and two
different concrete transactions. -/
theorem signTransaction_signature_ignores_transaction_witness :
    (SeedVault.signTransaction Demo.demoEnv Demo.demoVault7 "7-id" Demo.demoTx true 1).1 =
      .ok ⟨Demo.demoEnv.sign [1, 2, 3] SeedVault.mockMessageBytes,
           { instructions := Demo.demoTx.instructions, feePayer := some 7,
             recentBlockhash := some SeedVault.mockBlockhash,
             signatures := [(7, Demo.demoEnv.sign [1, 2, 3] SeedVault.mockMessageBytes)] },
           1⟩ ∧
    (SeedVault.signTransaction Demo.demoEnv Demo.demoVault7 "7-id" Demo.demoTx2 true 2).1 =
      .ok ⟨Demo.demoEnv.sign [1, 2, 3] SeedVault.mockMessageBytes,
           { instructions := Demo.demoTx2.instructions, feePayer := some 7,
             recentBlockhash := some SeedVault.mockBlockhash,
             signatures := [(7, Demo.demoEnv.sign [1, 2, 3] SeedVault.mockMessageBytes)] },
           2⟩ := by
  have h := signTransaction_signature_ignores_transaction Demo.demoEnv Demo.demoVault7 "7-id"
    Demo.demoWallet7 ⟨"alpha", [1, 2, 3]⟩ ⟨7, [1, 2, 3]⟩ Demo.demoTx Demo.demoTx2 1 2
    rfl rfl rfl rfl rfl rfl (by decide) (by decide)
  exact ⟨h.1, h.2.1⟩

/-! ### C10: the unlock length gate -/

/-- C10: on an initialized locked vault, `unlock` throws InvalidPassword
exactly when the password has fewer than 4 characters (the empty string
included); any password of length at least 4 unlocks the vault with no
comparison against a stored secret, and a subsequent `exportWallet` whose
decryption fails under that password throws DecryptionFailed. -/
theorem unlock_password_gate
    (env : SeedVault.CryptoEnv) (v : SeedVault.VaultState) (pw wid : String)
    (w : SeedVault.Wallet) (now now2 : Nat)
    (hInit : v.isInitialized = true) (hLock : v.isLocked = true) :
    (pw.length < 4 →
      SeedVault.unlock v pw now =
        (.error ⟨.INVALID_PASSWORD, "Invalid password provided"⟩, v)) ∧
    (4 ≤ pw.length →
      SeedVault.unlock v pw now =
        (.ok (), { v with isLocked := false, masterPassword := some pw,
                          lastActivity := now })) ∧
    (4 ≤ pw.length → SeedVault.storageLoad v.wallets wid = some w →
      env.decryptPayload w.encryptedPrivateKey pw = none →
      (SeedVault.exportWallet env (SeedVault.unlock v pw now).2 wid now2).1 =
        .error ⟨.DECRYPTION_FAILED, "Failed to export wallet: decryption error"⟩) := by
  have hInitNone : SeedVault.ensureInitialized v = none := by
    simp [SeedVault.ensureInitialized, hInit]
  refine ⟨?_, ?_, ?_⟩
  · intro hshort
    simp [SeedVault.unlock, hInitNone, hLock, hshort, SeedVault.mkErr]
  · intro hlong
    simp [SeedVault.unlock, hInitNone, hLock, Nat.not_lt.mpr hlong]
  · intro hlong hload hdec
    have hunlocked : (SeedVault.unlock v pw now).2 =
        { v with isLocked := false, masterPassword := some pw, lastActivity := now } := by
      simp [SeedVault.unlock, hInitNone, hLock, Nat.not_lt.mpr hlong]
    rw [hunlocked]
    simp only [SeedVault.exportWallet, SeedVault.ensureUnlocked, SeedVault.ensureInitialized,
      SeedVault.updateActivity, hInit]
    simp [hload, hdec, SeedVault.mkErr]

/-- C10 witness: the theorem applied to the concrete locked vault, with a
too-short password, a long-enough wrong password, and the resulting export
decryption failure. -/
theorem unlock_password_gate_witness :
    SeedVault.unlock Demo.demoVault7Locked "abc" 1 =
      (.error ⟨.INVALID_PASSWORD, "Invalid password provided"⟩, Demo.demoVault7Locked) ∧
    SeedVault.unlock Demo.demoVault7Locked "zzzz" 1 =
      (.ok (), { Demo.demoVault7Locked with
                 isLocked := false, masterPassword := some "zzzz", lastActivity := 1 }) ∧
    (SeedVault.exportWallet Demo.demoEnv
      (SeedVault.unlock Demo.demoVault7Locked "zzzz" 1).2 "7-id" 2).1 =
      .error ⟨.DECRYPTION_FAILED, "Failed to export wallet: decryption error"⟩ := by
  have ha := unlock_password_gate Demo.demoEnv Demo.demoVault7Locked "abc" "7-id"
    Demo.demoWallet7 1 2 rfl rfl
  have hb := unlock_password_gate Demo.demoEnv Demo.demoVault7Locked "zzzz" "7-id"
    Demo.demoWallet7 1 2 rfl rfl
  exact ⟨ha.1 (by decide), hb.2.1 (by decide),
    hb.2.2 (by decide) rfl rfl⟩

/-! ### C7: the encryption round-trip -/

theorem xorBytes_lt : ∀ a b : List Nat, (∀ x ∈ a, x < 256) → (∀ x ∈ b, x < 256) →
    ∀ x ∈ xorBytes a b, x < 256 := by
  intro a
  induction a with
  | nil => intro b _ _ x hx; simp [xorBytes] at hx
  | cons u t ih =>
    intro b ha hb x hx
    cases b with
    | nil => simp [xorBytes] at hx
    | cons v s =>
      simp only [xorBytes, List.zipWith_cons_cons, List.mem_cons] at hx
      rcases hx with rfl | hx
      · have hu : u < 2 ^ 8 := ha u (List.mem_cons_self _ _)
        have hv : v < 2 ^ 8 := hb v (List.mem_cons_self _ _)
        exact Nat.xor_lt_two_pow hu hv
      · exact ih s (fun y hy => ha y (List.mem_cons_of_mem _ hy))
          (fun y hy => hb y (List.mem_cons_of_mem _ hy)) x hx

theorem xorBytes_length (a b : List Nat) :
    (xorBytes a b).length = min a.length b.length := by
  simp [xorBytes]

theorem xorBytes_cancel : ∀ a b : List Nat, a.length = b.length →
    xorBytes (xorBytes a b) b = a := by
  intro a
  induction a with
  | nil => intro b _; simp [xorBytes]
  | cons u t ih =>
    intro b hlen
    cases b with
    | nil => simp at hlen
    | cons v s =>
      simp only [xorBytes, List.zipWith_cons_cons]
      rw [show (u.xor v).xor v = u from Nat.xor_cancel_right v u]
      have := ih s (by simpa using hlen)
      simp only [xorBytes] at this
      rw [this]

theorem cbcEnc_wf (C : BlockCipher) (key : List Nat) :
    ∀ (blocks : List (List Nat)) (prev : List Nat),
      prev.length = 16 → (∀ x ∈ prev, x < 256) →
      (∀ b ∈ blocks, b.length = 16 ∧ ∀ x ∈ b, x < 256) →
      ∀ c ∈ cbcEnc C key prev blocks, c.length = 16 ∧ ∀ x ∈ c, x < 256 := by
  intro blocks
  induction blocks with
  | nil => intro prev _ _ _ c hc; simp [cbcEnc] at hc
  | cons b bs ih =>
    intro prev hprevlen hprevlt hwf c hc
    have hb := hwf b (List.mem_cons_self _ _)
    have hxlen : (xorBytes b prev).length = 16 := by
      rw [xorBytes_length, hb.1, hprevlen]
      simp
    have hxlt : ∀ x ∈ xorBytes b prev, x < 256 := xorBytes_lt b prev hb.2 hprevlt
    have hclen : (C.enc key (xorBytes b prev)).length = 16 := C.length_enc key _ hxlen
    have hclt : ∀ x ∈ C.enc key (xorBytes b prev), x < 256 := C.lt_enc key _ hxlen hxlt
    simp only [cbcEnc, List.mem_cons] at hc
    rcases hc with rfl | hc
    · exact ⟨hclen, hclt⟩
    · exact ih (C.enc key (xorBytes b prev)) hclen hclt
        (fun y hy => hwf y (List.mem_cons_of_mem _ hy)) c hc

theorem cbc_roundtrip (C : BlockCipher) (key : List Nat) :
    ∀ (blocks : List (List Nat)) (prev : List Nat),
      prev.length = 16 → (∀ x ∈ prev, x < 256) →
      (∀ b ∈ blocks, b.length = 16 ∧ ∀ x ∈ b, x < 256) →
      cbcDec C key prev (cbcEnc C key prev blocks) = blocks := by
  intro blocks
  induction blocks with
  | nil => intro prev _ _ _; simp [cbcEnc, cbcDec]
  | cons b bs ih =>
    intro prev hprevlen hprevlt hwf
    have hb := hwf b (List.mem_cons_self _ _)
    have hxlen : (xorBytes b prev).length = 16 := by
      rw [xorBytes_length, hb.1, hprevlen]
      simp
    have hxlt : ∀ x ∈ xorBytes b prev, x < 256 := xorBytes_lt b prev hb.2 hprevlt
    have hclen : (C.enc key (xorBytes b prev)).length = 16 := C.length_enc key _ hxlen
    have hclt : ∀ x ∈ C.enc key (xorBytes b prev), x < 256 := C.lt_enc key _ hxlen hxlt
    simp only [cbcEnc, cbcDec]
    rw [C.dec_enc key _ hxlen hxlt]
    rw [xorBytes_cancel b prev (by rw [hb.1, hprevlen])]
    rw [ih (C.enc key (xorBytes b prev)) hclen hclt
      (fun y hy => hwf y (List.mem_cons_of_mem _ hy))]

theorem chunks16_flatten_inv : ∀ blocks : List (List Nat),
    (∀ b ∈ blocks, b.length = 16) → chunks16 blocks.flatten = blocks := by
  intro blocks
  induction blocks with
  | nil => simp [chunks16]
  | cons b bs ih =>
    intro hwf
    have hb : b.length = 16 := hwf b (List.mem_cons_self _ _)
    have hne : b ++ bs.flatten ≠ [] := by
      intro hcon
      have : b = [] := by
        cases b with
        | nil => rfl
        | cons x t => simp at hcon
      rw [this] at hb
      simp at hb
    rw [List.flatten_cons]
    rw [chunks16]
    rw [dif_neg hne]
    rw [show (16 : Nat) = b.length from hb.symm, List.take_left, List.drop_left]
    rw [ih (fun y hy => hwf y (List.mem_cons_of_mem _ hy))]

theorem flatten_chunks16_aux : ∀ (n : Nat) (l : List Nat), l.length ≤ n →
    (chunks16 l).flatten = l := by
  intro n
  induction n with
  | zero =>
    intro l h
    have : l = [] := List.eq_nil_of_length_eq_zero (by omega)
    subst this
    simp [chunks16]
  | succ n ih =>
    intro l hlen
    by_cases hl : l = []
    · subst hl; simp [chunks16]
    · rw [chunks16, dif_neg hl, List.flatten_cons]
      have hd : (l.drop 16).length ≤ n := by
        rw [List.length_drop]
        have := List.length_pos.mpr hl
        omega
      rw [ih _ hd]
      exact List.take_append_drop 16 l

theorem flatten_chunks16 (l : List Nat) : (chunks16 l).flatten = l :=
  flatten_chunks16_aux l.length l le_rfl

theorem chunks16_wf_aux : ∀ (n : Nat) (l : List Nat), l.length ≤ n →
    16 ∣ l.length → (∀ x ∈ l, x < 256) →
    ∀ b ∈ chunks16 l, b.length = 16 ∧ ∀ x ∈ b, x < 256 := by
  intro n
  induction n with
  | zero =>
    intro l h _ _ b hb
    have : l = [] := List.eq_nil_of_length_eq_zero (by omega)
    subst this
    simp [chunks16] at hb
  | succ n ih =>
    intro l hlen hdvd hlt b hb
    by_cases hl : l = []
    · subst hl; simp [chunks16] at hb
    · rw [chunks16, dif_neg hl] at hb
      have hpos : 0 < l.length := List.length_pos.mpr hl
      have h16 : 16 ≤ l.length := by
        rcases hdvd with ⟨k, hk⟩
        omega
      simp only [List.mem_cons] at hb
      rcases hb with rfl | hb
      · constructor
        · rw [List.length_take]
          omega
        · intro x hx
          exact hlt x (List.mem_of_mem_take hx)
      · have hdvd2 : 16 ∣ (l.drop 16).length := by
          rw [List.length_drop]
          rcases hdvd with ⟨k, hk⟩
          exact ⟨k - 1, by omega⟩
        have hd : (l.drop 16).length ≤ n := by
          rw [List.length_drop]
          omega
        exact ih (l.drop 16) hd hdvd2 (fun x hx => hlt x (List.mem_of_mem_drop hx)) b hb

theorem chunks16_wf (l : List Nat) (hdvd : 16 ∣ l.length) (hlt : ∀ x ∈ l, x < 256) :
    ∀ b ∈ chunks16 l, b.length = 16 ∧ ∀ x ∈ b, x < 256 :=
  chunks16_wf_aux l.length l le_rfl hdvd hlt

theorem pkcs7pad_length_dvd (data : List Nat) : 16 ∣ (pkcs7pad data).length := by
  unfold pkcs7pad
  rw [List.length_append, List.length_replicate]
  omega

theorem pkcs7pad_lt (data : List Nat) (hd : ∀ x ∈ data, x < 256) :
    ∀ x ∈ pkcs7pad data, x < 256 := by
  intro x hx
  unfold pkcs7pad at hx
  rcases List.mem_append.mp hx with h | h
  · exact hd x h
  · have := (List.mem_replicate.mp h).2
    omega

theorem pkcs7unpad_pad (data : List Nat) : pkcs7unpad (pkcs7pad data) = some data := by
  unfold pkcs7pad pkcs7unpad
  have hk : 1 ≤ 16 - data.length % 16 ∧ 16 - data.length % 16 ≤ 16 := by omega
  have hrep : List.replicate (16 - data.length % 16) (16 - data.length % 16) ≠ [] := by
    simp only [ne_eq, List.replicate_eq_nil_iff]
    omega
  rw [List.getLast?_append]
  rw [List.getLast?_replicate]
  rw [if_neg (by omega : ¬ (16 - data.length % 16 = 0))]
  simp only [Option.or_some]
  have hlen : (data ++ List.replicate (16 - data.length % 16) (16 - data.length % 16)).length =
      data.length + (16 - data.length % 16) := by
    rw [List.length_append, List.length_replicate]
  rw [hlen]
  have hsub : data.length + (16 - data.length % 16) - (16 - data.length % 16) = data.length := by
    omega
  rw [hsub]
  have hdrop : (data ++ List.replicate (16 - data.length % 16)
      (16 - data.length % 16)).drop data.length =
      List.replicate (16 - data.length % 16) (16 - data.length % 16) := List.drop_left _ _
  have htake : (data ++ List.replicate (16 - data.length % 16)
      (16 - data.length % 16)).take data.length = data := List.take_left _ _
  rw [hdrop, htake]
  rw [if_pos]
  refine ⟨hk.1, hk.2, by omega, ?_⟩
  simp [List.all_eq_true]

theorem b64Val_b64Char : ∀ n < 64, b64Val (b64Char n) = some n := by decide

theorem b64Char_ne_pad : ∀ n < 64, b64Char n ≠ '=' := by decide

theorem b64_roundtrip_aux : ∀ (n : Nat) (l : List Nat), l.length ≤ n →
    (∀ x ∈ l, x < 256) → b64Decode (b64Encode l) = some l := by
  intro n
  induction n with
  | zero =>
    intro l h _
    have : l = [] := List.eq_nil_of_length_eq_zero (by omega)
    subst this
    rfl
  | succ n ih =>
    intro l hlen hlt
    match l with
    | [] => rfl
    | [a] =>
      have ha : a < 256 := hlt a (by simp)
      have h1 : a / 4 < 64 := by omega
      have h2 : a % 4 * 16 < 64 := by omega
      simp only [b64Encode, b64Decode]
      rw [if_pos (by simp)]
      rw [b64Val_b64Char _ h1, b64Val_b64Char _ h2]
      show some [a / 4 * 4 + a % 4 * 16 / 16] = some [a]
      have : a / 4 * 4 + a % 4 * 16 / 16 = a := by omega
      rw [this]
    | [a, b] =>
      have ha : a < 256 := hlt a (by simp)
      have hb : b < 256 := hlt b (by simp)
      have h1 : a / 4 < 64 := by omega
      have h2 : a % 4 * 16 + b / 16 < 64 := by omega
      have h3 : b % 16 * 4 < 64 := by omega
      simp only [b64Encode, b64Decode]
      rw [if_neg (by
        intro hcon
        exact b64Char_ne_pad _ h3 hcon.2.1)]
      rw [if_pos (by simp)]
      rw [b64Val_b64Char _ h1, b64Val_b64Char _ h2, b64Val_b64Char _ h3]
      show some [a / 4 * 4 + (a % 4 * 16 + b / 16) / 16,
        (a % 4 * 16 + b / 16) % 16 * 16 + b % 16 * 4 / 4] = some [a, b]
      have e1 : a / 4 * 4 + (a % 4 * 16 + b / 16) / 16 = a := by omega
      have e2 : (a % 4 * 16 + b / 16) % 16 * 16 + b % 16 * 4 / 4 = b := by omega
      rw [e1, e2]
    | a :: b :: c :: rest =>
      have ha : a < 256 := hlt a (by simp)
      have hb : b < 256 := hlt b (by simp)
      have hc : c < 256 := hlt c (by simp)
      have h1 : a / 4 < 64 := by omega
      have h2 : a % 4 * 16 + b / 16 < 64 := by omega
      have h3 : b % 16 * 4 + c / 64 < 64 := by omega
      have h4 : c % 64 < 64 := by omega
      have hrest : b64Decode (b64Encode rest) = some rest := by
        refine ih rest ?_ (fun x hx => hlt x (by simp [hx]))
        have : (a :: b :: c :: rest).length = rest.length + 3 := by simp
        omega
      simp only [b64Encode, b64Decode]
      rw [if_neg (by
        intro hcon
        exact b64Char_ne_pad _ h4 hcon.2.2)]
      rw [if_neg (by
        intro hcon
        exact b64Char_ne_pad _ h4 hcon.2)]
      rw [b64Val_b64Char _ h1, b64Val_b64Char _ h2, b64Val_b64Char _ h3, b64Val_b64Char _ h4]
      rw [hrest]
      show some ([a / 4 * 4 + (a % 4 * 16 + b / 16) / 16,
        (a % 4 * 16 + b / 16) % 16 * 16 + (b % 16 * 4 + c / 64) / 4,
        (b % 16 * 4 + c / 64) % 4 * 64 + c % 64] ++ rest) = some (a :: b :: c :: rest)
      have e1 : a / 4 * 4 + (a % 4 * 16 + b / 16) / 16 = a := by omega
      have e2 : (a % 4 * 16 + b / 16) % 16 * 16 + (b % 16 * 4 + c / 64) / 4 = b := by omega
      have e3 : (b % 16 * 4 + c / 64) % 4 * 64 + c % 64 = c := by omega
      rw [e1, e2, e3]
      rfl

theorem b64_roundtrip (l : List Nat) (hlt : ∀ x ∈ l, x < 256) :
    b64Decode (b64Encode l) = some l :=
  b64_roundtrip_aux l.length l le_rfl hlt

/-- C7: for every plaintext byte sequence (the UTF-8 bytes of the plaintext
string — empty, ASCII and unicode alike) and every password, decrypting the
output of `encrypt` with the same password returns exactly the plaintext:
the base64 wrapping, the salt/iv/ciphertext layout, the key re-derivation
from the embedded salt, CBC chaining and PKCS#7 padding all invert, for any
block cipher satisfying the AES laws and any choice of the random salt and
iv. -/
theorem encrypt_decrypt_roundtrip (C : BlockCipher)
    (kdf : String → List Nat → List Nat) (data : List Nat) (password : String)
    (salt iv : List Nat)
    (hs : salt.length = 32) (hsb : ∀ x ∈ salt, x < 256)
    (hi : iv.length = 16) (hib : ∀ x ∈ iv, x < 256)
    (hd : ∀ x ∈ data, x < 256) :
    decrypt C kdf (encrypt C kdf data password salt iv) password = some data := by
  have hblocks := chunks16_wf (pkcs7pad data) (pkcs7pad_length_dvd data) (pkcs7pad_lt data hd)
  have hct : ∀ c ∈ cbcEnc C (kdf password salt) iv (chunks16 (pkcs7pad data)),
      c.length = 16 ∧ ∀ x ∈ c, x < 256 :=
    cbcEnc_wf C (kdf password salt) (chunks16 (pkcs7pad data)) iv hi hib hblocks
  have hctbytes : ∀ x ∈ encryptBytes C (kdf password salt) iv data, x < 256 := by
    intro x hx
    unfold encryptBytes at hx
    rcases List.mem_flatten.mp hx with ⟨c, hc, hxc⟩
    exact (hct c hc).2 x hxc
  have hfull : ∀ x ∈ salt ++ iv ++ encryptBytes C (kdf password salt) iv data,
      x < 256 := by
    intro x hx
    rcases List.mem_append.mp hx with h | h
    · rcases List.mem_append.mp h with h2 | h2
      · exact hsb x h2
      · exact hib x h2
    · exact hctbytes x h
  unfold encrypt decrypt
  rw [b64_roundtrip _ hfull]
  have hassoc : salt ++ iv ++ encryptBytes C (kdf password salt) iv data =
      salt ++ (iv ++ encryptBytes C (kdf password salt) iv data) := by
    rw [List.append_assoc]
  have htake : (salt ++ iv ++ encryptBytes C (kdf password salt) iv data).take 32 = salt := by
    rw [hassoc, show (32 : Nat) = salt.length from hs.symm, List.take_left]
  have hdrop32 : (salt ++ iv ++ encryptBytes C (kdf password salt) iv data).drop 32 =
      iv ++ encryptBytes C (kdf password salt) iv data := by
    rw [hassoc, show (32 : Nat) = salt.length from hs.symm, List.drop_left]
  have htake16 : (iv ++ encryptBytes C (kdf password salt) iv data).take 16 = iv := by
    rw [show (16 : Nat) = iv.length from hi.symm, List.take_left]
  have hdrop48 : (salt ++ iv ++ encryptBytes C (kdf password salt) iv data).drop 48 =
      encryptBytes C (kdf password salt) iv data := by
    rw [show (48 : Nat) = (salt ++ iv).length from by simp [hs, hi], List.drop_left]
  simp only [htake, hdrop32, htake16, hdrop48]
  unfold encryptBytes
  rw [chunks16_flatten_inv _ (fun b hb => (hct b hb).1)]
  rw [cbc_roundtrip C (kdf password salt) (chunks16 (pkcs7pad data)) iv hi hib hblocks]
  rw [flatten_chunks16]
  exact pkcs7unpad_pad data

/-- C7 witness: the round-trip theorem applied at a concrete cipher, key
derivation, plaintext, password, salt and iv. -/
theorem encrypt_decrypt_roundtrip_witness :
    decrypt Demo.demoCipher Demo.demoKdf
      (encrypt Demo.demoCipher Demo.demoKdf [72, 105] "pw"
        (List.replicate 32 0) (List.replicate 16 1)) "pw" = some [72, 105] :=
  encrypt_decrypt_roundtrip Demo.demoCipher Demo.demoKdf [72, 105] "pw"
    (List.replicate 32 0) (List.replicate 16 1)
    (by simp) (by decide) (by simp) (by decide) (by decide)

/-! ### C2: batch signing through the protocol service -/

theorem find?_map_replace_wallet (id : String) (e e2 : SeedVault.Wallet)
    (he2 : e2.id = id) :
    ∀ ws : List SeedVault.Wallet,
      ws.find? (fun x => x.id = id) = some e →
      (ws.map (fun x => if x.id = e2.id then e2 else x)).find? (fun x => x.id = id) = some e2 := by
  intro ws
  induction ws with
  | nil => simp
  | cons a rest ih =>
    intro hfind
    by_cases ha : a.id = id
    · have : (if a.id = e2.id then e2 else a) = e2 := by simp [ha, he2]
      simp only [List.map_cons, this]
      simp [List.find?_cons, he2]
    · have hcond : a.id ≠ e2.id := by rw [he2]; exact ha
      have : (if a.id = e2.id then e2 else a) = a := by simp [hcond]
      simp only [List.map_cons, this]
      rw [List.find?_cons_of_neg _ (by simpa using ha)] at hfind
      rw [List.find?_cons_of_neg _ (by simpa using ha)]
      exact ih hfind

theorem storageLoad_save (ws : List SeedVault.Wallet) (wid : String)
    (w w2 : SeedVault.Wallet) (hload : SeedVault.storageLoad ws wid = some w)
    (hid : w2.id = wid) :
    SeedVault.storageLoad (SeedVault.storageSave ws w2) wid = some w2 := by
  unfold SeedVault.storageLoad at hload ⊢
  unfold SeedVault.storageSave
  have hmem := List.mem_of_find?_eq_some hload
  have hw : w.id = wid := by simpa using List.find?_some hload
  have hany : ws.any (fun x => x.id = w2.id) = true :=
    List.any_eq_true.mpr ⟨w, hmem, by simp [hw, hid]⟩
  rw [if_pos hany]
  exact find?_map_replace_wallet wid w w2 hid ws hload

theorem trackerGet_set_self (t : Mwa.TrackerState) (e : Mwa.TrackerEntry) :
    Mwa.trackerGet (Mwa.trackerSet t e) e.id = some e := by
  unfold Mwa.trackerGet Mwa.trackerSet
  split
  · rename_i hany
    have hsome : (t.find? (fun x => x.id = e.id)).isSome = true := by
      obtain ⟨e0, hm, hp⟩ := List.any_eq_true.mp hany
      exact List.find?_isSome.mpr ⟨e0, hm, hp⟩
    obtain ⟨e0, he0⟩ := Option.isSome_iff_exists.mp hsome
    exact find?_map_replace e.id e0 e rfl t he0
  · rename_i hany
    rw [List.find?_append]
    have hnone : t.find? (fun x => x.id = e.id) = none := by
      refine List.find?_eq_none.mpr ?_
      intro x hx hcon
      exact hany (List.any_eq_true.mpr ⟨x, hx, hcon⟩)
    rw [hnone]
    simp

theorem updateStatus_present (t : Mwa.TrackerState) (id : String)
    (st : Mwa.TxStatus) (now : Nat) (e : Mwa.TrackerEntry)
    (he : Mwa.trackerGet t id = some e) :
    ∃ t2, Mwa.updateStatus t id st now = .ok t2 ∧
      ∃ e2, Mwa.trackerGet t2 id = some e2 := by
  have hpe : e.id = id := by simpa using List.find?_some he
  have hset := trackerGet_set t id e
    { e with
      status := st, updatedAt := now,
      approvedAt := if st = .approved then some now else e.approvedAt,
      signedAt := if st = .signed then some now else e.signedAt,
      submittedAt := if st = .submitted then some now else e.submittedAt,
      confirmedAt := if st = .confirmed then some now else e.confirmedAt,
      events := e.events ++ [⟨"status_change", now, some e.status, some st,
        "Status changed from " ++ Mwa.statusName e.status ++ " to " ++ Mwa.statusName st⟩] }
    he hpe
  refine ⟨_, ?_, ⟨_, hset⟩⟩
  simp only [Mwa.updateStatus, he]

theorem addSignature_present (t : Mwa.TrackerState) (id sig : String) (now : Nat)
    (e : Mwa.TrackerEntry) (he : Mwa.trackerGet t id = some e) :
    ∃ t2, Mwa.addSignature t id sig now = .ok t2 := by
  refine ⟨Mwa.trackerSet t
    { e with
      signature := some sig, updatedAt := now,
      events := e.events ++
        [⟨"signing_completed", now, none, none, "Transaction signed successfully"⟩] }, ?_⟩
  simp only [Mwa.addSignature, he]

theorem validator_valid_instructions (tx : SeedVault.Tx) (val : Mwa.ValidationResult)
    (h : Mwa.validateTransaction (some tx) = .ok val) (hv : val.isValid = true) :
    tx.instructions ≠ [] := by
  intro hcon
  simp only [Mwa.validateTransaction, hcon, Mwa.extractTransactionMetadata,
    Mwa.extractLoop, Mwa.validateInstructions] at h
  injection h with h2
  subst h2
  simp at hv

theorem signTransaction_auto_ok
    (env : SeedVault.CryptoEnv) (v : SeedVault.VaultState) (wid : String)
    (w : SeedVault.Wallet) (payload : SeedVault.SecretPayload)
    (kp : SeedVault.Keypair) (tx : SeedVault.Tx) (now : Nat)
    (hInit : v.isInitialized = true) (hUnlock : v.isLocked = false)
    (hload : SeedVault.storageLoad v.wallets wid = some w)
    (hdec : env.decryptPayload w.encryptedPrivateKey (v.masterPassword.getD "") = some payload)
    (hder : SeedVault.deriveKeypairFromMnemonic env payload.mnemonic
      w.profile.derivationPath = .ok kp)
    (hmatch : kp.publicKey = w.publicKey)
    (hne : tx.instructions ≠ []) :
    ∃ v2, SeedVault.signTransaction env v wid tx true now =
      (.ok ⟨env.sign kp.secretKey SeedVault.mockMessageBytes,
        { instructions := tx.instructions, feePayer := some kp.publicKey,
          recentBlockhash := some SeedVault.mockBlockhash,
          signatures := [(kp.publicKey, env.sign kp.secretKey SeedVault.mockMessageBytes)] },
        now⟩, v2) ∧
      v2.isInitialized = true ∧ v2.isLocked = false ∧
      v2.masterPassword = v.masterPassword ∧
      SeedVault.storageLoad v2.wallets wid = some { w with lastUsed := now } := by
  have hEns : SeedVault.ensureUnlocked v = none := by
    simp [SeedVault.ensureUnlocked, SeedVault.ensureInitialized, hInit, hUnlock]
  have hwid : w.id = wid := by
    simpa using List.find?_some hload
  refine ⟨{ v with
            lastActivity := now,
            wallets := SeedVault.storageSave v.wallets { w with lastUsed := now } },
    ?_, hInit, hUnlock, rfl, ?_⟩
  · simp only [SeedVault.signTransaction, SeedVault.updateActivity, hEns, hload, hdec, hder]
    simp [hmatch, hne]
  · exact storageLoad_save v.wallets wid w { w with lastUsed := now } hload hwid

theorem signLoop_length (env : SeedVault.CryptoEnv) (oracle : Nat → Bool × Option String)
    (txIds : Nat → String) (wid dApp : String) (now : Nat) :
    ∀ (txs : List SeedVault.Tx) (i : Nat) (v : SeedVault.VaultState)
      (tr : Mwa.TrackerState) (rs : List Mwa.SignResult) (v2 : SeedVault.VaultState)
      (tr2 : Mwa.TrackerState),
      Mwa.signLoop env oracle txIds wid dApp now i txs v tr = (.ok rs, v2, tr2) →
      rs.length = txs.length := by
  intro txs
  induction txs with
  | nil =>
    intro i v tr rs v2 tr2 h
    simp only [Mwa.signLoop] at h
    rcases h with ⟨rfl, _, _⟩
    rfl
  | cons tx rest ih =>
    intro i v tr rs v2 tr2 h
    simp only [Mwa.signLoop] at h
    rcases hp : Mwa.processItem env (oracle i) (txIds i) wid dApp tx now v tr with ⟨pr, pv, ptr⟩
    cases pr with
    | error s =>
      simp only [hp] at h
      simp at h
    | ok r =>
      rcases hl : Mwa.signLoop env oracle txIds wid dApp now (i + 1) rest pv ptr
        with ⟨lr, lv, ltr⟩
      cases lr with
      | error s =>
        simp only [hp, hl] at h
        simp at h
      | ok rs2 =>
        simp only [hp, hl] at h
        simp only [Prod.mk.injEq] at h
        obtain ⟨h1, -, -⟩ := h
        injection h1 with h1
        subst h1
        simp [ih (i + 1) pv ptr rs2 lv ltr hl]

theorem processItem_expected
    (env : SeedVault.CryptoEnv) (ap : Bool × Option String) (txId wid dApp : String)
    (tx : SeedVault.Tx) (now : Nat) (v : SeedVault.VaultState) (tr : Mwa.TrackerState)
    (payload : SeedVault.SecretPayload) (kp : SeedVault.Keypair) (w : SeedVault.Wallet)
    (hInit : v.isInitialized = true) (hUnlock : v.isLocked = false)
    (hload : SeedVault.storageLoad v.wallets wid = some w)
    (hdec : env.decryptPayload w.encryptedPrivateKey (v.masterPassword.getD "") = some payload)
    (hder : SeedVault.deriveKeypairFromMnemonic env payload.mnemonic
      w.profile.derivationPath = .ok kp)
    (hmatch : kp.publicKey = w.publicKey)
    (hok : ∃ val, Mwa.validateTransaction (some tx) = .ok val) :
    ∃ v2 tr2, Mwa.processItem env ap txId wid dApp tx now v tr =
      (.ok (Mwa.expectedItemResult env kp ap tx), v2, tr2) ∧
      v2.isInitialized = true ∧ v2.isLocked = false ∧
      v2.masterPassword = v.masterPassword ∧
      ∃ w2, SeedVault.storageLoad v2.wallets wid = some w2 ∧
        w2.encryptedPrivateKey = w.encryptedPrivateKey ∧ w2.profile = w.profile ∧
        w2.publicKey = w.publicKey := by
  obtain ⟨val, hval⟩ := hok
  by_cases hv : val.isValid = false
  · refine ⟨v, tr, ?_, hInit, hUnlock, rfl, w, hload, rfl, rfl, rfl⟩
    simp only [Mwa.processItem, Mwa.expectedItemResult, hval, hv]
    simp
  · have hvt : val.isValid = true := by
      cases hbv : val.isValid
      · exact absurd hbv hv
      · rfl
    have hne : tx.instructions ≠ [] := validator_valid_instructions tx val hval hvt
    -- the freshly created entry is present under its id
    have hcreate : Mwa.trackerGet (Mwa.createTransaction tr txId wid dApp tx val.metadata now).2
        txId = some (Mwa.createTransaction tr txId wid dApp tx val.metadata now).1 :=
      trackerGet_set_self tr _
    obtain ⟨trP, hupP, eP, heP⟩ := updateStatus_present _ txId .pending now _ hcreate
    rcases ap with ⟨approved, reason⟩
    cases approved with
    | false =>
      obtain ⟨trR, hupR, eR, heR⟩ := updateStatus_present trP txId .rejected now eP heP
      refine ⟨v, trR, ?_, hInit, hUnlock, rfl, w, hload, rfl, rfl, rfl⟩
      simp only [Mwa.processItem, Mwa.expectedItemResult, hval, hv, hupP, hupR]
      simp
    | true =>
      obtain ⟨trA, hupA, eA, heA⟩ := updateStatus_present trP txId .approved now eP heP
      obtain ⟨trS, hupS, eS, heS⟩ := updateStatus_present trA txId .signing now eA heA
      obtain ⟨v2, hsign, hv2i, hv2l, hv2m, hload2⟩ :=
        signTransaction_auto_ok env v wid w payload kp tx now hInit hUnlock hload hdec hder
          hmatch hne
      obtain ⟨trG, hupG, eG, heG⟩ := updateStatus_present trS txId .signed now eS heS
      obtain ⟨trH, haddH⟩ := addSignature_present trG txId
        (Mwa.toHexString (env.sign kp.secretKey SeedVault.mockMessageBytes)) now eG heG
      refine ⟨v2, trH, ?_, hv2i, hv2l, hv2m, { w with lastUsed := now }, hload2, rfl, rfl, rfl⟩
      simp only [Mwa.processItem, Mwa.expectedItemResult, hval, hv, hupP, hupA, hupS,
        hsign, hupG, haddH]
      simp

theorem signLoop_expected
    (env : SeedVault.CryptoEnv) (oracle : Nat → Bool × Option String)
    (txIds : Nat → String) (wid dApp : String) (now : Nat)
    (payload : SeedVault.SecretPayload) (kp : SeedVault.Keypair) :
    ∀ (txs : List SeedVault.Tx) (i : Nat) (v : SeedVault.VaultState)
      (tr : Mwa.TrackerState) (w : SeedVault.Wallet),
      v.isInitialized = true → v.isLocked = false →
      SeedVault.storageLoad v.wallets wid = some w →
      env.decryptPayload w.encryptedPrivateKey (v.masterPassword.getD "") = some payload →
      SeedVault.deriveKeypairFromMnemonic env payload.mnemonic
        w.profile.derivationPath = .ok kp →
      kp.publicKey = w.publicKey →
      (∀ tx ∈ txs, ∃ val, Mwa.validateTransaction (some tx) = .ok val) →
      ∃ v2 tr2, Mwa.signLoop env oracle txIds wid dApp now i txs v tr =
        (.ok (Mwa.idxMap (fun j tx => Mwa.expectedItemResult env kp (oracle j) tx) i txs),
         v2, tr2) := by
  intro txs
  induction txs with
  | nil =>
    intro i v tr w _ _ _ _ _ _ _
    exact ⟨v, tr, rfl⟩
  | cons tx rest ih =>
    intro i v tr w hInit hUnlock hload hdec hder hmatch hok
    obtain ⟨v2, tr2, hp, hv2i, hv2l, hv2m, w2, hload2, hw2e, hw2p, hw2k⟩ :=
      processItem_expected env (oracle i) (txIds i) wid dApp tx now v tr payload kp w
        hInit hUnlock hload hdec hder hmatch (hok tx (by simp))
    obtain ⟨v3, tr3, hl⟩ := ih (i + 1) v2 tr2 w2 hv2i hv2l hload2
      (by rw [hw2e, hv2m]; exact hdec) (by rw [hw2p]; exact hder)
      (by rw [hw2k]; exact hmatch)
      (fun t ht => hok t (by simp [ht]))
    refine ⟨v3, tr3, ?_⟩
    simp only [Mwa.signLoop, hp, hl, Mwa.idxMap]

theorem addError_present (t : Mwa.TrackerState) (id msg : String) (now : Nat)
    (e : Mwa.TrackerEntry) (he : Mwa.trackerGet t id = some e) :
    ∃ t2, Mwa.addError t id msg now = .ok t2 := by
  refine ⟨Mwa.trackerSet t
    { e with
      error := some msg, updatedAt := now,
      events := e.events ++ [⟨"error", now, none, none, msg⟩] }, ?_⟩
  simp only [Mwa.addError, he]

theorem signTransaction_result_view
    (env : SeedVault.CryptoEnv) (va vb : SeedVault.VaultState) (wid : String)
    (h : Mwa.signView va wid = Mwa.signView vb wid) (tx : SeedVault.Tx) (n : Nat) :
    (SeedVault.signTransaction env va wid tx true n).1 =
    (SeedVault.signTransaction env vb wid tx true n).1 := by
  simp only [Mwa.signView, Prod.mk.injEq] at h
  obtain ⟨h1, h2, h3, h4⟩ := h
  have he : SeedVault.ensureUnlocked va = SeedVault.ensureUnlocked vb := by
    simp [SeedVault.ensureUnlocked, SeedVault.ensureInitialized, h1, h2]
  rcases hu : SeedVault.ensureUnlocked vb with _ | e
  · rcases hla : SeedVault.storageLoad va.wallets wid with _ | w
    · rcases hlb : SeedVault.storageLoad vb.wallets wid with _ | w2
      · simp only [SeedVault.signTransaction, SeedVault.updateActivity, he, hu, hla, hlb]
      · rw [hla, hlb] at h4
        simp at h4
    · rcases hlb : SeedVault.storageLoad vb.wallets wid with _ | w2
      · rw [hla, hlb] at h4
        simp at h4
      · rw [hla, hlb] at h4
        simp only [Option.map_some', Option.some.injEq, Prod.mk.injEq] at h4
        obtain ⟨hp, hk, hen⟩ := h4
        simp only [SeedVault.signTransaction, SeedVault.updateActivity, he, hu, hla, hlb,
          hp, hk, hen, h3, reduceIte]
        rcases hd : env.decryptPayload w2.encryptedPrivateKey (vb.masterPassword.getD "")
          with _ | payload
        · simp only [hd]
        · simp only [hd]
          rcases hder : SeedVault.deriveKeypairFromMnemonic env payload.mnemonic
            w2.profile.derivationPath with e2 | kp
          · simp only [hder]
          · simp only [hder]
            by_cases hkp : kp.publicKey = w2.publicKey
            · by_cases hins : tx.instructions = []
              · simp [hkp, hins]
              · simp [hkp, hins]
            · simp [hkp]
  · simp only [SeedVault.signTransaction, he, hu]

theorem signTransaction_view_step
    (env : SeedVault.CryptoEnv) (v : SeedVault.VaultState) (wid : String)
    (tx : SeedVault.Tx) (now : Nat) :
    Mwa.signView (SeedVault.signTransaction env v wid tx true now).2 wid =
    Mwa.signView v wid := by
  rcases hu : SeedVault.ensureUnlocked v with _ | e
  · rcases hl : SeedVault.storageLoad v.wallets wid with _ | w
    · simp only [SeedVault.signTransaction, SeedVault.updateActivity, hu, hl]
      rfl
    · rcases hd : env.decryptPayload w.encryptedPrivateKey (v.masterPassword.getD "")
        with _ | payload
      · simp only [SeedVault.signTransaction, SeedVault.updateActivity, hu, hl, hd, reduceIte]
        rfl
      · rcases hder : SeedVault.deriveKeypairFromMnemonic env payload.mnemonic
          w.profile.derivationPath with e2 | kp
        · simp only [SeedVault.signTransaction, SeedVault.updateActivity, hu, hl, hd, hder,
            reduceIte]
          rfl
        · by_cases hkp : kp.publicKey = w.publicKey
          · by_cases hins : tx.instructions = []
            · simp only [SeedVault.signTransaction, SeedVault.updateActivity, hu, hl, hd, hder,
                reduceIte, hkp, hins]
              simp only [ne_eq, not_true_eq_false, if_false, reduceIte]
              rfl
            · have hwid : w.id = wid := by simpa using List.find?_some hl
              have hsv := storageLoad_save v.wallets wid w { w with lastUsed := now } hl hwid
              simp only [SeedVault.signTransaction, SeedVault.updateActivity, hu, hl, hd, hder,
                reduceIte, hkp, hins]
              simp only [ne_eq, not_true_eq_false, if_false, reduceIte]
              simp [Mwa.signView, hsv, hl, hins]
          · simp only [SeedVault.signTransaction, SeedVault.updateActivity, hu, hl, hd, hder,
              reduceIte]
            simp only [ne_eq, hkp, not_false_eq_true, if_true, reduceIte]
            rfl
  · simp only [SeedVault.signTransaction, hu]

theorem itemOutcome_congr (env : SeedVault.CryptoEnv) (ap : Bool × Option String)
    (wid : String) (va vb : SeedVault.VaultState) (now : Nat) (tx : SeedVault.Tx)
    (h : Mwa.signView va wid = Mwa.signView vb wid) :
    Mwa.itemOutcome env ap wid va now tx = Mwa.itemOutcome env ap wid vb now tx := by
  unfold Mwa.itemOutcome
  rw [signTransaction_result_view env va vb wid h tx now]

theorem processItem_outcome
    (env : SeedVault.CryptoEnv) (ap : Bool × Option String) (txId wid dApp : String)
    (tx : SeedVault.Tx) (now : Nat) (v : SeedVault.VaultState) (tr : Mwa.TrackerState)
    (hok : ∃ val, Mwa.validateTransaction (some tx) = .ok val) :
    ∃ v2 tr2, Mwa.processItem env ap txId wid dApp tx now v tr =
      (.ok (Mwa.itemOutcome env ap wid v now tx), v2, tr2) ∧
      Mwa.signView v2 wid = Mwa.signView v wid := by
  obtain ⟨val, hval⟩ := hok
  by_cases hv : val.isValid = false
  · refine ⟨v, tr, ?_, rfl⟩
    simp only [Mwa.processItem, Mwa.itemOutcome, hval, hv]
    simp
  · have hvt : val.isValid = true := by
      cases hbv : val.isValid
      · exact absurd hbv hv
      · rfl
    have hcreate : Mwa.trackerGet (Mwa.createTransaction tr txId wid dApp tx val.metadata now).2
        txId = some (Mwa.createTransaction tr txId wid dApp tx val.metadata now).1 :=
      trackerGet_set_self tr _
    obtain ⟨trP, hupP, eP, heP⟩ := updateStatus_present _ txId .pending now _ hcreate
    rcases ap with ⟨approved, reason⟩
    cases approved with
    | false =>
      obtain ⟨trR, hupR, eR, heR⟩ := updateStatus_present trP txId .rejected now eP heP
      refine ⟨v, trR, ?_, rfl⟩
      simp only [Mwa.processItem, Mwa.itemOutcome, hval, hv, hupP, hupR]
      simp
    | true =>
      obtain ⟨trA, hupA, eA, heA⟩ := updateStatus_present trP txId .approved now eP heP
      obtain ⟨trS, hupS, eS, heS⟩ := updateStatus_present trA txId .signing now eA heA
      rcases hs : SeedVault.signTransaction env v wid tx true now with ⟨sres, v2⟩
      have hview : Mwa.signView v2 wid = Mwa.signView v wid := by
        have hstep := signTransaction_view_step env v wid tx now
        rw [hs] at hstep
        exact hstep
      cases sres with
      | ok sr =>
        obtain ⟨trG, hupG, eG, heG⟩ := updateStatus_present trS txId .signed now eS heS
        obtain ⟨trH, haddH⟩ := addSignature_present trG txId
          (Mwa.toHexString sr.signature) now eG heG
        refine ⟨v2, trH, ?_, hview⟩
        simp only [Mwa.processItem, Mwa.itemOutcome, hval, hv, hupP, hupA, hupS, hs,
          hupG, haddH]
        simp
      | error err =>
        obtain ⟨trE, hupE, eE2, heE2⟩ := updateStatus_present trS txId .signing_failed now eS heS
        obtain ⟨trF, haddF⟩ := addError_present trE txId err.message now eE2 heE2
        refine ⟨v2, trF, ?_, hview⟩
        simp only [Mwa.processItem, Mwa.itemOutcome, Mwa.itemCatch, hval, hv, hvt,
          hupP, hupA, hupS, hs, hupE, haddF]
        simp

theorem signLoop_outcomes
    (env : SeedVault.CryptoEnv) (oracle : Nat → Bool × Option String)
    (txIds : Nat → String) (wid dApp : String) (now : Nat) :
    ∀ (txs : List SeedVault.Tx) (i : Nat) (v : SeedVault.VaultState) (tr : Mwa.TrackerState),
      (∀ tx ∈ txs, ∃ val, Mwa.validateTransaction (some tx) = .ok val) →
      ∃ v2 tr2, Mwa.signLoop env oracle txIds wid dApp now i txs v tr =
        (.ok (Mwa.idxMap (fun j tx => Mwa.itemOutcome env (oracle j) wid v now tx) i txs),
         v2, tr2) ∧
        Mwa.signView v2 wid = Mwa.signView v wid := by
  intro txs
  induction txs with
  | nil =>
    intro i v tr _
    exact ⟨v, tr, rfl, rfl⟩
  | cons tx rest ih =>
    intro i v tr hok
    obtain ⟨v2, tr2, hp, hview2⟩ :=
      processItem_outcome env (oracle i) (txIds i) wid dApp tx now v tr (hok tx (by simp))
    obtain ⟨v3, tr3, hl, hview3⟩ := ih (i + 1) v2 tr2 (fun t ht => hok t (by simp [ht]))
    have hfun : (fun j t => Mwa.itemOutcome env (oracle j) wid v2 now t) =
        (fun j t => Mwa.itemOutcome env (oracle j) wid v now t) := by
      funext j t
      exact itemOutcome_congr env (oracle j) wid v2 v now t hview2
    rw [hfun] at hl
    refine ⟨v3, tr3, ?_, hview3.trans hview2⟩
    simp only [Mwa.signLoop, hp, hl, Mwa.idxMap]


/-- C2: `signTransactions` throws exactly for the structural preconditions —
missing session, not connected, not authorized, empty batch; for every
authorized session and non-empty batch it returns `ok` with exactly one
result per input transaction, in input order; and whenever the unlocked
vault lists a wallet for the authorized key, the result list is the
independent per-item map `itemOutcome` over the initial vault state: a
validation failure, a user rejection, or a vault signing error (failed
decryption, derived-key mismatch, missing wallet) at one item is recorded
as the error entry of that item — a signing error becomes the
failed-to-sign entry through the tracker, never a thrown exception —
without stopping or altering the remaining items, and approved valid items
carry the mock signature.  No health assumption is made on the wallet
itself.  Transactions are TypeScript-typed values: the hypothesis that the
validator returns a verdict excludes only the JS-level crash on an
instruction whose keys field is undefined, which the source re-throws to
the outer catch. -/
theorem mwa_signTransactions_batch
    (env : SeedVault.CryptoEnv) (oracle : Nat → Bool × Option String)
    (txIds : Nat → String) (st : Mwa.MwaState) (session : Mwa.MWASession)
    (txs : List SeedVault.Tx) (now : Nat) :
    (Mwa.sessionsHas st.sessions session.sessionId = false →
      Mwa.signTransactions env oracle txIds st session txs now =
        (.error "Invalid session: session not found", st)) ∧
    (Mwa.sessionsHas st.sessions session.sessionId = true →
      session.connectionState ≠ .connected →
      Mwa.signTransactions env oracle txIds st session txs now =
        (.error "Invalid session: not connected", st)) ∧
    (Mwa.sessionsHas st.sessions session.sessionId = true →
      session.connectionState = .connected →
      session.authorizedPublicKey = none →
      Mwa.signTransactions env oracle txIds st session txs now =
        (.error "Session not authorized", st)) ∧
    (Mwa.sessionsHas st.sessions session.sessionId = true →
      session.connectionState = .connected →
      session.authorizedPublicKey ≠ none →
      txs = [] →
      (Mwa.signTransactions env oracle txIds st session txs now).1 =
        .error "No transactions provided") ∧
    (Mwa.sessionsHas st.sessions session.sessionId = true →
      session.connectionState = .connected →
      session.authorizedPublicKey ≠ none →
      txs ≠ [] →
      ∃ rs st2, Mwa.signTransactions env oracle txIds st session txs now = (.ok rs, st2) ∧
        rs.length = txs.length) ∧
    (∀ aw,
      Mwa.sessionsHas st.sessions session.sessionId = true →
      session.connectionState = .connected →
      session.authorizedPublicKey ≠ none →
      txs ≠ [] →
      st.vault.isInitialized = true →
      st.vault.isLocked = false →
      (SeedVault.loadAllWallets st.vault.wallets).find?
        (fun w => some w.publicKey = session.authorizedPublicKey) = some aw →
      (∀ tx ∈ txs, ∃ val, Mwa.validateTransaction (some tx) = .ok val) →
      ∃ st2, Mwa.signTransactions env oracle txIds st session txs now =
        (.ok (Mwa.idxMap
          (fun i tx => Mwa.itemOutcome env (oracle i) aw.id st.vault now tx) 0 txs),
         st2)) := by
  refine ⟨?_, ?_, ?_, ?_, ?_, ?_⟩
  · intro h
    simp [Mwa.signTransactions, h]
  · intro h hc
    simp [Mwa.signTransactions, h, hc]
  · intro h hc ha
    simp [Mwa.signTransactions, h, hc, ha]
  · intro h hc ha hemp
    simp [Mwa.signTransactions, h, hc, ha, hemp]
  · intro h hc ha hne
    simp only [Mwa.signTransactions, h, hc, ha, hne]
    simp only [Bool.false_eq_true, if_false, reduceIte, ne_eq, not_true_eq_false]
    rcases hlw : SeedVault.listWallets
        { st with sessions := Mwa.updateSessionActivity st.sessions session.sessionId now }.vault
        now with ⟨lr, lv⟩
    cases lr with
    | error e =>
      refine ⟨txs.map (fun _ =>
        ⟨none, none, some ("Failed to sign transactions: " ++ e.message)⟩),
        { sessions := Mwa.updateSessionActivity st.sessions session.sessionId now,
          vault := lv, tracker := st.tracker }, ?_, by simp⟩
      simp [Mwa.signTransactions, h, hc, ha, hne, hlw]
    | ok wallets =>
      rcases hfw : wallets.find? (fun w => some w.publicKey = session.authorizedPublicKey)
        with _ | aw
      · refine ⟨txs.map (fun _ =>
          ⟨none, none, some "Failed to sign transactions: Authorized wallet not found"⟩),
          { sessions := Mwa.updateSessionActivity st.sessions session.sessionId now,
            vault := lv, tracker := st.tracker }, ?_, by simp⟩
        simp [Mwa.signTransactions, h, hc, ha, hne, hlw, hfw]
      · rcases hloop : Mwa.signLoop env oracle txIds aw.id session.dAppIdentifier now 0 txs lv
          st.tracker with ⟨lres, lv2, ltr2⟩
        cases lres with
        | error s =>
          refine ⟨txs.map (fun _ =>
            ⟨none, none, some ("Failed to sign transactions: " ++ s)⟩),
            { sessions := Mwa.updateSessionActivity st.sessions session.sessionId now,
              vault := lv2, tracker := ltr2 }, ?_, by simp⟩
          simp [Mwa.signTransactions, h, hc, ha, hne, hlw, hfw, hloop]
        | ok rs =>
          refine ⟨rs,
            { sessions := Mwa.updateSessionActivity st.sessions session.sessionId now,
              vault := lv2, tracker := ltr2 }, ?_,
            signLoop_length env oracle txIds aw.id session.dAppIdentifier
              now txs 0 lv st.tracker rs lv2 ltr2 hloop⟩
          simp [Mwa.signTransactions, h, hc, ha, hne, hlw, hfw, hloop]
  · intro aw h hc ha hne hvi hvl hfw hok
    have hEns : SeedVault.ensureUnlocked st.vault = none := by
      simp [SeedVault.ensureUnlocked, SeedVault.ensureInitialized, hvi, hvl]
    have hlw : SeedVault.listWallets st.vault now =
        (.ok (SeedVault.loadAllWallets st.vault.wallets), SeedVault.updateActivity st.vault now) := by
      simp only [SeedVault.listWallets, SeedVault.updateActivity, hEns]
    obtain ⟨v2, tr2, hloop, hview⟩ := signLoop_outcomes env oracle txIds aw.id
      session.dAppIdentifier now txs 0 (SeedVault.updateActivity st.vault now) st.tracker hok
    have hfun : (fun j t => Mwa.itemOutcome env (oracle j) aw.id
        (SeedVault.updateActivity st.vault now) now t) =
        (fun j t => Mwa.itemOutcome env (oracle j) aw.id st.vault now t) := by
      funext j t
      exact itemOutcome_congr env (oracle j) aw.id _ st.vault now t rfl
    rw [hfun] at hloop
    refine ⟨{ sessions := Mwa.updateSessionActivity st.sessions session.sessionId now,
              vault := v2, tracker := tr2 }, ?_⟩
    simp [Mwa.signTransactions, h, hc, ha, hne, hlw, hfw, hloop]

/-- C2 witness: the batch theorem applied to two concrete states.  On the
healthy single-wallet vault, the batch [invalid, valid] returns the
independent per-item results in input order.  On the corrupted vault,
whose stored public key never matches re-derivation, a two-item batch of
wholly valid transactions yields the failed-to-sign error entry for BOTH
items: the vault signing error at item 0 is recorded and processing
continues to item 1 rather than throwing. -/
theorem mwa_signTransactions_batch_witness :
    ((Mwa.signTransactions Demo.demoEnv Demo.demoOracleApprove Demo.demoTxIds
        Demo.demoMwaState Demo.demoSession [Demo.demoTxInvalid, Demo.demoTx] 3).1 =
      .ok (Mwa.idxMap (fun i tx => Mwa.itemOutcome Demo.demoEnv (Demo.demoOracleApprove i)
        "7-id" Demo.demoVault7 3 tx) 0 [Demo.demoTxInvalid, Demo.demoTx])) ∧
    ((Mwa.signTransactions Demo.demoEnv Demo.demoOracleApprove Demo.demoTxIds
        Demo.demoMwaStateCorrupt Demo.demoSessionCorrupt [Demo.demoTx, Demo.demoTx2] 3).1 =
      .ok [⟨none, none,
             some "Failed to sign transaction: Derived keypair does not match wallet public key"⟩,
           ⟨none, none,
             some "Failed to sign transaction: Derived keypair does not match wallet public key"⟩]) := by
  constructor
  · obtain ⟨st2, hst⟩ :=
      (mwa_signTransactions_batch Demo.demoEnv Demo.demoOracleApprove Demo.demoTxIds
        Demo.demoMwaState Demo.demoSession [Demo.demoTxInvalid, Demo.demoTx] 3).2.2.2.2.2
        Demo.demoWallet7 rfl rfl (by simp [Demo.demoSession]) (by simp) rfl rfl rfl
        (by
          intro tx htx
          rcases List.mem_cons.mp htx with rfl | htx2
          · exact ⟨_, rfl⟩
          · rcases List.mem_cons.mp htx2 with rfl | h3
            · exact ⟨_, rfl⟩
            · simp at h3)
    rw [hst]
    rfl
  · obtain ⟨st2, hst⟩ :=
      (mwa_signTransactions_batch Demo.demoEnv Demo.demoOracleApprove Demo.demoTxIds
        Demo.demoMwaStateCorrupt Demo.demoSessionCorrupt [Demo.demoTx, Demo.demoTx2] 3).2.2.2.2.2
        Demo.demoWalletCorrupt rfl rfl (by simp [Demo.demoSessionCorrupt]) (by simp) rfl rfl rfl
        (by
          intro tx htx
          rcases List.mem_cons.mp htx with rfl | htx2
          · exact ⟨_, rfl⟩
          · rcases List.mem_cons.mp htx2 with rfl | h3
            · exact ⟨_, rfl⟩
            · simp at h3)
    rw [hst]
    rfl

/-- C3: (amended) on an unlocked vault, importing a valid mnemonic whose
derived public key equals the public key of a stored wallet fails — the
error carries code WALLET_NOT_FOUND (the `SeedVaultErrorCode` union has no
duplicate-wallet member) and message "Wallet with this public key already
exists" — and the stored wallet set is unchanged by the failed call. -/
theorem import_duplicate_rejected
    (env : SeedVault.CryptoEnv) (v : SeedVault.VaultState)
    (profile : SeedVault.WalletProfile) (m : String) (kp : SeedVault.Keypair) (now : Nat)
    (hInit : v.isInitialized = true) (hUnlock : v.isLocked = false)
    (hval : env.validMnemonic m = true)
    (hder : env.deriveFromSeed (env.mnemonicToSeed m) profile.derivationPath = .ok kp)
    (hdup : ∃ w ∈ v.wallets, w.publicKey = kp.publicKey) :
    SeedVault.importWallet env v profile m now =
      (.error ⟨.WALLET_NOT_FOUND, "Wallet with this public key already exists"⟩,
       SeedVault.updateActivity v now) ∧
    (SeedVault.importWallet env v profile m now).2.wallets = v.wallets := by
  have hEns : SeedVault.ensureUnlocked v = none := by
    simp [SeedVault.ensureUnlocked, SeedVault.ensureInitialized, hInit, hUnlock]
  have hderive : SeedVault.deriveKeypairFromMnemonic env m profile.derivationPath = .ok kp := by
    simp [SeedVault.deriveKeypairFromMnemonic, hval, hder]
  obtain ⟨w0, hw0, hpk⟩ := hdup
  have hsome : ((SeedVault.loadAllWallets v.wallets).find?
      (fun w => w.publicKey = kp.publicKey)).isSome := by
    refine List.find?_isSome.mpr ⟨w0, mem_loadAllWallets.mpr hw0, ?_⟩
    simp [hpk]
  obtain ⟨y, hy⟩ := Option.isSome_iff_exists.mp hsome
  constructor
  · simp only [SeedVault.importWallet, SeedVault.updateActivity, hEns, hval, hderive]
    simp only [hy]
    simp [SeedVault.mkErr]
  · simp only [SeedVault.importWallet, SeedVault.updateActivity, hEns, hval, hderive]
    simp only [hy]
    simp

/-- C3 witness: the amended duplicate-import theorem applied to the concrete
single-wallet vault whose stored wallet has the derived public key. -/
theorem import_duplicate_rejected_witness :
    SeedVault.importWallet Demo.demoEnv Demo.demoVault7 Demo.demoProfile "alpha" 7 =
      (.error ⟨.WALLET_NOT_FOUND, "Wallet with this public key already exists"⟩,
       SeedVault.updateActivity Demo.demoVault7 7) ∧
    (SeedVault.importWallet Demo.demoEnv Demo.demoVault7 Demo.demoProfile "alpha" 7).2.wallets =
      Demo.demoVault7.wallets :=
  import_duplicate_rejected Demo.demoEnv Demo.demoVault7 Demo.demoProfile "alpha"
    ⟨7, [1, 2, 3]⟩ 7 rfl rfl rfl rfl ⟨Demo.demoWallet7, by simp [Demo.demoVault7], rfl⟩
